import Mathlib

/-!
# spendutxo: the transaction draft builder of `main.go`

A shallow embedding of the pure part of `main` (lines 93-269 of `main.go`):
the start-up checks, the change-address resolution, the credit resolver loop,
the destination-output loop, the fee and change computation and the input
shuffle.  Calls that leave the program (`os.Exit(1)`, `panic` through
`orPanic`) are the `.error` results of `Except BuildError`.  The connection to
the wallet (lines 115-125), the serialization, signing, publishing and
printing (lines 272-311) are outside the model.

Conventions of the embedding:

* `int64` values are integers reduced by `wrap64` after every arithmetic
  operation (Go wraps silently); `/` is truncated division.
* Command-line strings are represented by what the parsing calls return on
  them (`strings.Split`, `chainhash.Decode`, `strconv.Atoi`,
  `dcrutil.DecodeAddress`, `dcrutil.NewAmount`), `none` standing for the
  error return that `orPanic` turns into a panic.
* The wallet RPCs, `txscript.PayToAddrScript` and `(*wire.MsgTx).SerializeSize`
  are functions handed to the model.
* `crypto/rand.Reader` is the list of the 64-bit values it delivers; running
  out of them is the read error on which `cryptoSource.Uint64` panics.
-/

namespace spendutxo

/-! ## int64 arithmetic -/

/-- Two's-complement reduction of an integer to the `int64` range. -/
def wrap64 (x : Int) : Int := (x + 2 ^ 63) % 2 ^ 64 - 2 ^ 63

/-- Go `a + b` on `int64`. -/
def add64 (a b : Int) : Int := wrap64 (a + b)

/-- Go `a - b` on `int64`. -/
def sub64 (a b : Int) : Int := wrap64 (a - b)

/-- Go `a * b` on `int64`. -/
def mul64 (a b : Int) : Int := wrap64 (a * b)

/-- Go `a / b` on `int64`: the quotient truncated toward zero. -/
def div64 (a b : Int) : Int := wrap64 (Int.tdiv a b)

/-! ## Data model -/

/-- Raw bytes of a script. -/
abbrev Script := List Nat

/-- A `chainhash.Hash`, the 32 bytes of a transaction id. -/
abbrev Hash := List Nat

/-- A decoded `dcrutil.Address`, by the bytes of its script address. -/
abbrev Address := List Nat

/-- The enum `pb.TransactionDetails_TransactionType` of the wallet RPC. -/
inductive TransactionType
  | REGULAR
  | COINBASE
  | TICKET_PURCHASE
  | VOTE
  | REVOCATION
deriving DecidableEq

/-- One entry of `TransactionDetails.Credits`: `Index` is a `uint32`,
`Amount` an `int64`. -/
structure Credit where
  Index : Nat
  Amount : Int
  OutputScript : Script
deriving DecidableEq

/-- The fields of `pb.TransactionDetails` that `main` reads. -/
structure TransactionDetails where
  TransactionType : TransactionType
  Credits : List Credit
deriving DecidableEq

/-- A `wire.OutPoint`. -/
structure OutPoint where
  Hash : Hash
  Index : Nat
  Tree : Int
deriving DecidableEq

/-- A `wire.TxIn`, with the fields `wire.NewTxIn` receives. -/
structure TxIn where
  PreviousOutPoint : OutPoint
  ValueIn : Int
  SignatureScript : Script
deriving DecidableEq

/-- A `wire.TxOut`, with the fields `wire.NewTxOut` receives. -/
structure TxOut where
  Value : Int
  PkScript : Script
deriving DecidableEq

/-- A `wire.MsgTx`: the ordered inputs and the ordered outputs. -/
structure MsgTx where
  TxIn : List TxIn
  TxOut : List TxOut
deriving DecidableEq

/-- The ways `main` stops before the draft is complete: one constructor for
each `os.Exit(1)` and one for every panic. -/
inductive BuildError
  | noDestinations
  | countMismatch
  | noUtxos
  | publishRequiresSign
  | changeNotMine
  | invalidUtxo (i : Nat)
  | transactionNotFound
  | unsupportedScript
  | utxoNotFound
  | insufficientFunds
  | goPanic
deriving DecidableEq

/-- One `--utxo` argument, by what the parsing calls make of it. -/
inductive UtxoArg
  | malformed
  | badHash
  | ref (txh : Hash) (index : Option Int)
deriving DecidableEq

/-- The command-line options `main` uses. `DestAddrs` holds the results of
`dcrutil.DecodeAddress`, `DestAmounts` those of `dcrutil.NewAmount`;
`ChangeAddr` is `none` for the empty string; `ChangeAccount` is a Go `int`. -/
structure opts where
  Utxos : List UtxoArg
  DestAddrs : List (Option Address)
  DestAmounts : List (Option Int)
  ChangeAddr : Option (Option Address)
  ChangeAccount : Int
  Sign : Bool
  Publish : Bool

/-- The collaborators `main` calls, as one run sees them: three wallet RPCs
(outer `none`: the call returned an error; the argument of `NextAddress` is the
`uint32` account), the script builder and the serialized size of a draft. -/
structure Externals where
  ValidateAddress : Address → Option Bool
  NextAddress : Nat → Option (Option Address)
  GetTransaction : Hash → Option (Option TransactionDetails)
  PayToAddrScript : Address → Option Script
  SerializeSize : MsgTx → Int

/-- What `main` holds when the draft is complete (lines 250-269, 304-311). -/
structure Report where
  tx : MsgTx
  estimatedFee : Int
  estimatedBytes : Int
  changeAmt : Int
deriving DecidableEq

/-! ## Constants and constructors -/

/-- Line 28: `const feeRate = int64(1e4)`, in atoms per kilobyte. -/
def feeRate : Int := 10000

/-- Builds an outpoint as `wire.NewOutPoint` does. -/
def NewOutPoint (hash : Hash) (index : Nat) (tree : Int) : OutPoint :=
  { Hash := hash, Index := index, Tree := tree }

/-- Builds an input as `wire.NewTxIn` does. -/
def NewTxIn (prevOut : OutPoint) (valueIn : Int) (signatureScript : Script) : TxIn :=
  { PreviousOutPoint := prevOut, ValueIn := valueIn, SignatureScript := signatureScript }

/-- Builds an output as `wire.NewTxOut` does. -/
def NewTxOut (value : Int) (pkScript : Script) : TxOut :=
  { Value := value, PkScript := pkScript }

/-- Appends an input, as `(*wire.MsgTx).AddTxIn` does. -/
def MsgTx.AddTxIn (tx : MsgTx) (ti : spendutxo.TxIn) : MsgTx :=
  { tx with TxIn := tx.TxIn ++ [ti] }

/-- Appends an output, as `(*wire.MsgTx).AddTxOut` does. -/
def MsgTx.AddTxOut (tx : MsgTx) (txOut : spendutxo.TxOut) : MsgTx :=
  { tx with TxOut := tx.TxOut ++ [txOut] }

/-- The empty draft of `wire.NewMsgTx()`. -/
def NewMsgTx : MsgTx := { TxIn := [], TxOut := [] }

/-! ## Credit resolver (lines 156-215) -/

/-- Lines 180-188: the tree of the outpoint, from the transaction type. -/
def treeOf : TransactionType → Int
  | .TICKET_PURCHASE => 1
  | .VOTE => 1
  | .REVOCATION => 1
  | _ => 0

/-- Lines 193-209: the loop over the credits of the looked-up transaction.
Returns `foundCredit`, the draft and `totalInputAmount`. -/
def creditLoop (txh : Hash) (tree : Int) (targetIndex : Int) :
    List Credit → MsgTx → Int → Except BuildError (Bool × MsgTx × Int)
  | [], tx, totalInputAmount => .ok (false, tx, totalInputAmount)
  | credit :: rest, tx, totalInputAmount =>
    if (credit.Index : Int) ≠ targetIndex then
      creditLoop txh tree targetIndex rest tx totalInputAmount
    else
      let tx := tx.AddTxIn (NewTxIn (NewOutPoint txh credit.Index tree) credit.Amount [])
      let totalInputAmount := add64 totalInputAmount credit.Amount
      let lenOutScript := credit.OutputScript.length
      if (tree = 0 ∧ lenOutScript ≠ 25) ∨ (tree = 1 ∧ lenOutScript ≠ 26) then
        .error .unsupportedScript
      else
        .ok (true, tx, totalInputAmount)

/-- Lines 160-214: the body of the loop over `opts.Utxos`, for the utxo at
position `i`. -/
def resolveUtxo (ext : Externals) (i : Nat) (u : UtxoArg) (tx : MsgTx)
    (totalInputAmount : Int) : Except BuildError (MsgTx × Int) :=
  match u with
  | .malformed => .error (.invalidUtxo i)
  | .badHash => .error .goPanic
  | .ref txh index =>
    match ext.GetTransaction txh with
    | none => .error .goPanic
    | some none => .error .transactionNotFound
    | some (some details) =>
      let tree := treeOf details.TransactionType
      match index with
      | none => .error .goPanic
      | some targetIndex =>
        match creditLoop txh tree targetIndex details.Credits tx totalInputAmount with
        | .error e => .error e
        | .ok (foundCredit, tx, totalInputAmount) =>
          if !foundCredit then .error .utxoNotFound else .ok (tx, totalInputAmount)

/-- Lines 159-215: the loop over `opts.Utxos`, from position `i` on. -/
def resolveLoop (ext : Externals) : Nat → List UtxoArg → MsgTx → Int →
    Except BuildError (MsgTx × Int)
  | _, [], tx, totalInputAmount => .ok (tx, totalInputAmount)
  | i, u :: rest, tx, totalInputAmount =>
    match resolveUtxo ext i u tx totalInputAmount with
    | .error e => .error e
    | .ok (tx, totalInputAmount) => resolveLoop ext (i + 1) rest tx totalInputAmount

/-! ## Output assembler (lines 217-230) -/

/-- Lines 218-230: the loop over the destinations. Indexing `DestAmounts`
past its end is a run-time panic. -/
def outputLoop (ext : Externals) : List (Option Address) → List (Option Int) → MsgTx → Int →
    Except BuildError (MsgTx × Int)
  | [], _, tx, totalOutputAmount => .ok (tx, totalOutputAmount)
  | addr :: addrs, amounts, tx, totalOutputAmount =>
    match addr with
    | none => .error .goPanic
    | some addr =>
      match amounts with
      | [] => .error .goPanic
      | none :: _ => .error .goPanic
      | some amt :: amounts =>
        match ext.PayToAddrScript addr with
        | none => .error .goPanic
        | some pkscript =>
          outputLoop ext addrs amounts (tx.AddTxOut (NewTxOut amt pkscript))
            (add64 totalOutputAmount amt)

/-! ## Fee and change (lines 232-263) -/

/-- Line 233: the bytes a change output takes. -/
def changeOutputSize : Int := 8 + 2 + 1 + 25

/-- Lines 235-236: the serialized size of the draft plus the room for one
signature script for each input. -/
def totalBytes (ext : Externals) (tx : MsgTx) : Int :=
  add64 (wrap64 (ext.SerializeSize tx)) (wrap64 ((tx.TxIn.length : Int) * (1 + 73 + 1 + 33)))

/-- Line 238. -/
def feeWithChange (totalBytes : Int) : Int :=
  div64 (mul64 (add64 totalBytes changeOutputSize) feeRate) 1000

/-- Line 239. -/
def feeWithoutChange (totalBytes : Int) : Int :=
  div64 (mul64 totalBytes feeRate) 1000

/-- Line 242. -/
def dustLimit : Int := div64 (mul64 200 feeRate) 1000

/-- Lines 232-263: the dust-limit check and the change decision on the
assembled draft. -/
def feeAndChange (ext : Externals) (changeAddr : Address) (tx : MsgTx)
    (totalInputAmount totalOutputAmount : Int) : Except BuildError Report :=
  let totalBytes := totalBytes ext tx
  let feeWithChange := feeWithChange totalBytes
  let feeWithoutChange := feeWithoutChange totalBytes
  if sub64 (sub64 totalInputAmount totalOutputAmount) feeWithoutChange < dustLimit then
    .error .insufficientFunds
  else if sub64 (sub64 totalInputAmount totalOutputAmount) feeWithChange > dustLimit then
    match ext.PayToAddrScript changeAddr with
    | none => .error .goPanic
    | some pkscript =>
      let changeAmt := sub64 (sub64 totalInputAmount totalOutputAmount) feeWithChange
      .ok { tx := tx.AddTxOut (NewTxOut changeAmt pkscript)
            estimatedFee := feeWithChange
            estimatedBytes := add64 totalBytes changeOutputSize
            changeAmt := changeAmt }
  else
    .ok { tx := tx
          estimatedFee := feeWithoutChange
          estimatedBytes := totalBytes
          changeAmt := 0 }

/-! ## Input shuffle (lines 57-69 and 265-269) -/

/-- Lines 61-63: `cryptoSource.Int63` on the value `v` that
`cryptoSource.Uint64` has read, `int64(v & ^uint64(1<<63))`. -/
def cryptoSource.Int63 (v : Nat) : Nat :=
  (v % 2 ^ 64) &&& (2 ^ 64 - 1 - 2 ^ 63)

/-- Go `(*rand.Rand).Uint32` over the crypto source:
`uint32(r.Int63() >> 31)`. -/
def Rand.Uint32 (v : Nat) : Nat :=
  (cryptoSource.Int63 v >>> 31) % 2 ^ 32

/-- The rejection loop of `(*rand.Rand).int31n`: draws again while the low
half of the product is under the threshold. -/
def Rand.int31nRetry (n thresh : Nat) : List Nat → Option (Nat × List Nat)
  | [] => none
  | d :: reader =>
    let prod := Rand.Uint32 d * n
    let low := prod % 2 ^ 32
    if low < thresh then Rand.int31nRetry n thresh reader
    else some (prod >>> 32, reader)

/-- Go `(*rand.Rand).int31n`: a value in `[0, n)` by multiply-and-shift with
rejection. Returns the value and the rest of the reader. -/
def Rand.int31n (n : Nat) : List Nat → Option (Nat × List Nat)
  | [] => none
  | d :: reader =>
    let prod := Rand.Uint32 d * n
    let low := prod % 2 ^ 32
    if low < n then
      let thresh := (2 ^ 32 - n) % n
      if low < thresh then Rand.int31nRetry n thresh reader
      else some (prod >>> 32, reader)
    else some (prod >>> 32, reader)

/-- The rejection loop of `(*rand.Rand).Int63n`. -/
def Rand.Int63nRetry (n max : Nat) : List Nat → Option (Nat × List Nat)
  | [] => none
  | d :: reader =>
    let v := cryptoSource.Int63 d
    if v > max then Rand.Int63nRetry n max reader
    else some (v % n, reader)

/-- Go `(*rand.Rand).Int63n`: a value in `[0, n)`. -/
def Rand.Int63n (n : Nat) : List Nat → Option (Nat × List Nat)
  | [] => none
  | d :: reader =>
    let v := cryptoSource.Int63 d
    if n &&& (n - 1) = 0 then some (v &&& (n - 1), reader)
    else
      let max := 2 ^ 63 - 1 - 2 ^ 63 % n
      if v > max then Rand.Int63nRetry n max reader
      else some (v % n, reader)

/-- The two loops of Go `(*rand.Rand).Shuffle`, entered at index `i`: while
`i > 0`, draw `j` in `[0, i]` (with `Int63n` while `i > 1<<31 - 1 - 1`, with
`int31n` below) and call `swap(i, j)`. The callback acts on a state `σ` and
`none` is a panic inside it. -/
def Rand.shuffleLoop {σ : Type} (swap : Nat → Nat → σ → Option σ) :
    Nat → List Nat → σ → Option σ
  | 0, _, s => some s
  | i + 1, reader, s =>
    match (if i + 1 > 2 ^ 31 - 1 - 1 then Rand.Int63n (i + 2) reader
           else Rand.int31n (i + 2) reader) with
    | none => none
    | some (j, reader) =>
      match swap (i + 1) j s with
      | none => none
      | some s => Rand.shuffleLoop swap i reader s

/-- Go `(*rand.Rand).Shuffle(n, swap)`: starts the loops at `i = n - 1`. -/
def Rand.Shuffle {σ : Type} (n : Nat) (swap : Nat → Nat → σ → Option σ)
    (reader : List Nat) (s : σ) : Option σ :=
  Rand.shuffleLoop swap (n - 1) reader s

/-- Line 268, the callback: `tx.TxIn[i], tx.TxIn[j] = tx.TxIn[j], tx.TxIn[i]`.
An index out of range panics. -/
def swapTxIn (i j : Nat) (tx : MsgTx) : Option MsgTx :=
  match tx.TxIn[i]?, tx.TxIn[j]? with
  | some a, some b => some { tx with TxIn := (tx.TxIn.set i b).set j a }
  | _, _ => none

/-- Lines 265-269: the shuffle of the inputs of the finished draft; fee, size
and change amount are carried along as computed. -/
def shuffleInputs (reader : List Nat) (r : Report) : Except BuildError Report :=
  match Rand.Shuffle r.tx.TxIn.length swapTxIn reader r.tx with
  | none => .error .goPanic
  | some tx => .ok { r with tx := tx }

/-! ## The whole of `main` up to the serialization (lines 93-269) -/

/-- Go `uint32(x)` on an integer: the value modulo `2 ^ 32`. -/
def uint32 (x : Int) : Nat := (x % 2 ^ 32).toNat

/-- Lines 127-153: the change address, given on the command line and checked
against the wallet, or else the next internal address of the account
`uint32(opts.ChangeAccount)`. -/
def resolveChangeAddr (ext : Externals) (o : opts) : Except BuildError Address :=
  match o.ChangeAddr with
  | some decoded =>
    match decoded with
    | none => .error .goPanic
    | some changeAddr =>
      match ext.ValidateAddress changeAddr with
      | none => .error .goPanic
      | some isMine => if !isMine then .error .changeNotMine else .ok changeAddr
  | none =>
    match ext.NextAddress (uint32 o.ChangeAccount) with
    | none => .error .goPanic
    | some none => .error .goPanic
    | some (some changeAddr) => .ok changeAddr

/-- Lines 93-263: `main` up to the finished draft, before the shuffle. -/
def buildDraft (ext : Externals) (o : opts) : Except BuildError Report :=
  if o.DestAddrs.length = 0 then .error .noDestinations
  else if o.DestAddrs.length ≠ o.DestAmounts.length then .error .countMismatch
  else if o.Utxos.length = 0 then .error .noUtxos
  else if o.Publish && !o.Sign then .error .publishRequiresSign
  else
    match resolveChangeAddr ext o with
    | .error e => .error e
    | .ok changeAddr =>
      match resolveLoop ext 0 o.Utxos NewMsgTx 0 with
      | .error e => .error e
      | .ok (tx, totalInputAmount) =>
        match outputLoop ext o.DestAddrs o.DestAmounts tx 0 with
        | .error e => .error e
        | .ok (tx, totalOutputAmount) =>
          feeAndChange ext changeAddr tx totalInputAmount totalOutputAmount

/-- Lines 93-269: `main` up to the shuffled draft that is serialized. -/
def run (ext : Externals) (reader : List Nat) (o : opts) : Except BuildError Report :=
  match buildDraft ext o with
  | .error e => .error e
  | .ok r => shuffleInputs reader r

/-! ## The wire size of a draft -/

/-- The size `wire.VarIntSerializeSize` gives a count. -/
def VarIntSerializeSize (n : Nat) : Int :=
  if n < 0xfd then 1 else if n ≤ 0xffff then 3 else if n ≤ 0xffffffff then 5 else 9

/-- The size of one input in the full Decred encoding: outpoint (32 + 4 + 1),
sequence (4), then in the witness part value (8), block height (4), block
index (4) and the signature script with its length. -/
def txInSerializeSize (ti : TxIn) : Int :=
  41 + (16 + VarIntSerializeSize ti.SignatureScript.length + ti.SignatureScript.length)

/-- The size of one output: value (8), script version (2) and the script with
its length. -/
def txOutSerializeSize (txOut : TxOut) : Int :=
  8 + 2 + VarIntSerializeSize txOut.PkScript.length + txOut.PkScript.length

/-- The full serialized size of a Decred transaction as `dcrd/wire` computes
it: version, lock time and expiry (12), the input count twice, the output
count, the inputs and the outputs. -/
def wireSerializeSize (tx : MsgTx) : Int :=
  12 + 2 * VarIntSerializeSize tx.TxIn.length + VarIntSerializeSize tx.TxOut.length
    + (tx.TxIn.map txInSerializeSize).sum + (tx.TxOut.map txOutSerializeSize).sum

/-- Sum of a list of `int64` values as Go accumulates it with `+=`. -/
def sum64 (xs : List Int) : Int := xs.foldl add64 0

/-! ## A concrete wallet and command line -/

/-- A pay-to-pubkey-hash script: `DUP HASH160 DATA_20 <20 bytes> EQUALVERIFY
CHECKSIG`, 25 bytes. -/
def p2pkhScript : Script := [0x76, 0xa9, 0x14] ++ List.replicate 20 0 ++ [0x88, 0xac]

/-- A wallet whose every transaction has type `tt` and a single credit of
`amount` atoms at index 0 with output script `script`; sizes are those of the
Decred wire encoding. -/
def walletOf (tt : TransactionType) (script : Script) (amount : Int) : Externals :=
  { ValidateAddress := fun _ => some true
    NextAddress := fun _ => some (some (List.replicate 20 1))
    GetTransaction := fun _ =>
      some (some { TransactionType := tt
                   Credits := [{ Index := 0, Amount := amount, OutputScript := script }] })
    PayToAddrScript := fun _ => some p2pkhScript
    SerializeSize := wireSerializeSize }

/-- A wallet whose every transaction is a regular one with a single
pay-to-pubkey-hash credit of `amount` atoms at index 0. -/
def exampleWallet (amount : Int) : Externals := walletOf .REGULAR p2pkhScript amount

/-- One utxo, one destination of `amount` atoms, change to account 0. -/
def exampleOpts (amount : Int) : opts :=
  { Utxos := [.ref (List.replicate 32 0) (some 0)]
    DestAddrs := [some (List.replicate 20 2)]
    DestAmounts := [some amount]
    ChangeAddr := none
    ChangeAccount := 0
    Sign := false
    Publish := false }

/-- The draft of `exampleOpts dest` on `exampleWallet amount` as it enters the
fee computation: one input, one output. -/
def exampleTx (amount dest : Int) : MsgTx :=
  { TxIn := [NewTxIn (NewOutPoint (List.replicate 32 0) 0 0) amount []]
    TxOut := [NewTxOut dest p2pkhScript] }

/-- A wallet whose every transaction is a regular one with two credits, of
60,000,000 atoms at index 0 and 40,000,000 atoms at index 1. -/
def twoCreditWallet : Externals :=
  { ValidateAddress := fun _ => some true
    NextAddress := fun _ => some (some (List.replicate 20 1))
    GetTransaction := fun _ =>
      some (some { TransactionType := .REGULAR
                   Credits := [{ Index := 0, Amount := 60000000, OutputScript := p2pkhScript },
                               { Index := 1, Amount := 40000000, OutputScript := p2pkhScript }] })
    PayToAddrScript := fun _ => some p2pkhScript
    SerializeSize := wireSerializeSize }

/-- Two utxos of one transaction, given in the order `first`, `second`, and one
destination of 50,000,000 atoms. -/
def twoUtxoOpts (first second : Int) : opts :=
  { Utxos := [.ref (List.replicate 32 0) (some first), .ref (List.replicate 32 0) (some second)]
    DestAddrs := [some (List.replicate 20 2)]
    DestAmounts := [some 50000000]
    ChangeAddr := none
    ChangeAccount := 0
    Sign := false
    Publish := false }

/-- The input `twoCreditWallet` yields for the credit at `index`. -/
def twoCreditInput (index : Nat) (amount : Int) : TxIn :=
  NewTxIn (NewOutPoint (List.replicate 32 0) index 0) amount []

/-- The finished draft of scenario A: 100,000,000 atoms in, 50,000,000 out. -/
def scenarioAReport : Report :=
  { tx := { TxIn := (exampleTx 100000000 50000000).TxIn
            TxOut := (exampleTx 100000000 50000000).TxOut ++ [NewTxOut 49997470 p2pkhScript] }
    estimatedFee := 2530
    estimatedBytes := 253
    changeAmt := 49997470 }

/-- The finished draft without change for `amount` atoms in and `dest` out. -/
def noChangeReport (amount dest : Int) : Report :=
  { tx := exampleTx amount dest
    estimatedFee := 2170
    estimatedBytes := 217
    changeAmt := 0 }

/-- The pay-to-pubkey-hash script of an address: `DUP HASH160 DATA_20`, the
bytes of the address, `EQUALVERIFY CHECKSIG`. -/
def payToPubKeyHash (addr : Address) : Script := [0x76, 0xa9, 0x14] ++ addr ++ [0x88, 0xac]

/-- The wallet `twoCreditWallet` with a script builder that depends on the
address, as `txscript.PayToAddrScript` does. -/
def twoCreditAddrWallet : Externals :=
  { twoCreditWallet with PayToAddrScript := fun addr => some (payToPubKeyHash addr) }

/-- The command line `twoUtxoOpts first second` with `--changeto changeAddr`. -/
def changeToOpts (first second : Int) (changeAddr : Address) : opts :=
  { twoUtxoOpts first second with ChangeAddr := some (some changeAddr) }

/-- The destination output of `twoUtxoOpts` on `twoCreditAddrWallet`. -/
def twoUtxoDest : TxOut := NewTxOut 50000000 (payToPubKeyHash (List.replicate 20 2))

/-- The draft that scenario A would give for a 100-atom credit and a
destination of `2 ^ 63 - 1024` atoms, as the program builds it. -/
def overflowReport : Report :=
  { tx := { TxIn := (exampleTx 100 9223372036854774784).TxIn
            TxOut := (exampleTx 100 9223372036854774784).TxOut
              ++ [NewTxOut 9223372036854774402 p2pkhScript] }
    estimatedFee := 2530
    estimatedBytes := 253
    changeAmt := 9223372036854774402 }

/-- The finished draft of `changeToOpts` on `twoCreditAddrWallet`, with the two
inputs in the order given and the change sent to `changeAddr`. -/
def changeToReport (first second : TxIn) (changeAddr : Address) : Report :=
  { tx := { TxIn := [first, second]
            TxOut := [twoUtxoDest, NewTxOut 49995810 (payToPubKeyHash changeAddr)] }
    estimatedFee := 4190
    estimatedBytes := 419
    changeAmt := 49995810 }

set_option maxRecDepth 8192

/-! ## Facts about the int64 operations -/

theorem wrap64_ge (x : Int) : -2 ^ 63 ≤ wrap64 x := by
  unfold wrap64; omega

theorem wrap64_lt (x : Int) : wrap64 x < 2 ^ 63 := by
  unfold wrap64; omega

theorem wrap64_of_range {x : Int} (h₁ : -2 ^ 63 ≤ x) (h₂ : x < 2 ^ 63) : wrap64 x = x := by
  unfold wrap64; omega

theorem dustLimit_eq : dustLimit = 2000 := by decide

theorem changeOutputSize_eq : changeOutputSize = 36 := by decide

theorem totalBytes_eq (ext : Externals) (tx : MsgTx) :
    totalBytes ext tx
      = add64 (wrap64 (ext.SerializeSize tx)) (wrap64 (108 * (tx.TxIn.length : Int))) := by
  unfold totalBytes
  have h : ((tx.TxIn.length : Int) * (1 + 73 + 1 + 33)) = 108 * (tx.TxIn.length : Int) := by
    omega
  rw [h]

theorem feeWithoutChange_eq (tb : Int) :
    feeWithoutChange tb = div64 (mul64 tb 10000) 1000 := rfl

theorem feeWithChange_eq (tb : Int) :
    feeWithChange tb = div64 (mul64 (add64 tb 36) 10000) 1000 := rfl

/-- The dust-limit check and the change decision, with the constants of the
source evaluated. -/
theorem feeAndChange_eq (ext : Externals) (changeAddr : Address) (tx : MsgTx)
    (totalInputAmount totalOutputAmount : Int) :
    feeAndChange ext changeAddr tx totalInputAmount totalOutputAmount =
      if sub64 (sub64 totalInputAmount totalOutputAmount)
          (feeWithoutChange (totalBytes ext tx)) < 2000 then
        .error .insufficientFunds
      else if 2000 < sub64 (sub64 totalInputAmount totalOutputAmount)
          (feeWithChange (totalBytes ext tx)) then
        match ext.PayToAddrScript changeAddr with
        | none => .error .goPanic
        | some pkscript =>
          .ok { tx := tx.AddTxOut (NewTxOut (sub64 (sub64 totalInputAmount totalOutputAmount)
                  (feeWithChange (totalBytes ext tx))) pkscript),
                estimatedFee := feeWithChange (totalBytes ext tx),
                estimatedBytes := add64 (totalBytes ext tx) 36,
                changeAmt := sub64 (sub64 totalInputAmount totalOutputAmount)
                  (feeWithChange (totalBytes ext tx)) }
      else
        .ok { tx := tx,
              estimatedFee := feeWithoutChange (totalBytes ext tx),
              estimatedBytes := totalBytes ext tx,
              changeAmt := 0 } := by
  unfold feeAndChange
  simp only [dustLimit_eq, changeOutputSize_eq, gt_iff_lt]

/-- With a non-negative serialized size `B`, `n` inputs and no overflow of
`(B + 108 n + 36) * 10000`, the size and both fees are plain integer
arithmetic: `B + 108 n`, `10 (B + 108 n)` and `10 (B + 108 n + 36)`. -/
theorem fees_of_size (B n : Int) (hB : 0 ≤ B) (hn : 0 ≤ n)
    (h : (B + 108 * n + 36) * 10000 < 2 ^ 63) :
    add64 (wrap64 B) (wrap64 (108 * n)) = B + 108 * n ∧
    feeWithoutChange (B + 108 * n) = 10 * (B + 108 * n) ∧
    feeWithChange (B + 108 * n) = 10 * (B + 108 * n + 36) ∧
    add64 (B + 108 * n) 36 = B + 108 * n + 36 := by
  have e1 : Int.tdiv ((B + 108 * n) * 10000) 1000 = 10 * (B + 108 * n) := by
    rw [Int.tdiv_eq_ediv (by omega) (by omega)]; omega
  have e2 : Int.tdiv ((B + 108 * n + 36) * 10000) 1000 = 10 * (B + 108 * n + 36) := by
    rw [Int.tdiv_eq_ediv (by omega) (by omega)]; omega
  have w1 : wrap64 ((B + 108 * n) * 10000) = (B + 108 * n) * 10000 :=
    wrap64_of_range (by omega) (by omega)
  have w2 : wrap64 ((B + 108 * n + 36) * 10000) = (B + 108 * n + 36) * 10000 :=
    wrap64_of_range (by omega) (by omega)
  have w3 : wrap64 (B + 108 * n + 36) = B + 108 * n + 36 :=
    wrap64_of_range (by omega) (by omega)
  refine ⟨?_, ?_, ?_, ?_⟩
  · unfold add64 wrap64; omega
  · rw [feeWithoutChange_eq]; unfold div64 mul64
    rw [w1, e1]; exact wrap64_of_range (by omega) (by omega)
  · rw [feeWithChange_eq]; unfold div64 mul64 add64
    rw [w3, w2, e2]; exact wrap64_of_range (by omega) (by omega)
  · unfold add64; exact w3

theorem totalBytes_of_size (ext : Externals) (tx : MsgTx)
    (hB : 0 ≤ ext.SerializeSize tx)
    (h : (ext.SerializeSize tx + 108 * (tx.TxIn.length : Int) + 36) * 10000 < 2 ^ 63) :
    totalBytes ext tx = ext.SerializeSize tx + 108 * (tx.TxIn.length : Int) := by
  rw [totalBytes_eq]
  exact (fees_of_size _ _ hB (by omega) h).1

/-- Without overflow the stage is the exact decision: for a serialized size
that is not negative and whose fee products fit `int64`, and for totals in
`[0, 2 ^ 62)`, the dust-limit check and the change decision compare the exact
integers `totalInputAmount - totalOutputAmount - fee` with 2000. -/
theorem feeAndChange_exact (ext : Externals) (changeAddr : Address) (tx : MsgTx)
    (totalInputAmount totalOutputAmount : Int)
    (hB : 0 ≤ ext.SerializeSize tx)
    (hsize : (ext.SerializeSize tx + 108 * (tx.TxIn.length : Int) + 36) * 10000 < 2 ^ 63)
    (h₁ : 0 ≤ totalInputAmount) (h₂ : totalInputAmount < 2 ^ 62)
    (h₃ : 0 ≤ totalOutputAmount) (h₄ : totalOutputAmount < 2 ^ 62) :
    feeAndChange ext changeAddr tx totalInputAmount totalOutputAmount =
      if totalInputAmount - totalOutputAmount
          - 10 * (ext.SerializeSize tx + 108 * (tx.TxIn.length : Int)) < 2000 then
        .error .insufficientFunds
      else if 2000 < totalInputAmount - totalOutputAmount
          - 10 * (ext.SerializeSize tx + 108 * (tx.TxIn.length : Int) + 36) then
        match ext.PayToAddrScript changeAddr with
        | none => .error .goPanic
        | some pkscript =>
          .ok { tx := tx.AddTxOut (NewTxOut (totalInputAmount - totalOutputAmount
                  - 10 * (ext.SerializeSize tx + 108 * (tx.TxIn.length : Int) + 36)) pkscript),
                estimatedFee := 10 * (ext.SerializeSize tx + 108 * (tx.TxIn.length : Int) + 36),
                estimatedBytes := ext.SerializeSize tx + 108 * (tx.TxIn.length : Int) + 36,
                changeAmt := totalInputAmount - totalOutputAmount
                  - 10 * (ext.SerializeSize tx + 108 * (tx.TxIn.length : Int) + 36) }
      else
        .ok { tx := tx,
              estimatedFee := 10 * (ext.SerializeSize tx + 108 * (tx.TxIn.length : Int)),
              estimatedBytes := ext.SerializeSize tx + 108 * (tx.TxIn.length : Int),
              changeAmt := 0 } := by
  have htb := totalBytes_of_size ext tx hB hsize
  obtain ⟨-, hf1, hf2, hf3⟩ := fees_of_size _ _ hB (by omega) hsize
  rw [feeAndChange_eq, htb, hf1, hf2, hf3]
  have hess : 0 ≤ ext.SerializeSize tx + 108 * (tx.TxIn.length : Int) := by omega
  clear htb hf1 hf2 hf3
  generalize ext.SerializeSize tx + 108 * (tx.TxIn.length : Int) = ess at hsize hess ⊢
  have e1 : sub64 (sub64 totalInputAmount totalOutputAmount) (10 * ess)
      = totalInputAmount - totalOutputAmount - 10 * ess := by
    unfold sub64 wrap64; omega
  have e2 : sub64 (sub64 totalInputAmount totalOutputAmount) (10 * (ess + 36))
      = totalInputAmount - totalOutputAmount - 10 * (ess + 36) := by
    unfold sub64 wrap64; omega
  rw [e1, e2]

/-! ## The dust-limit check on amounts that overflow

One credit of 100 atoms and one destination of `2 ^ 63 - 1024` atoms
(`--amt 92233720368.54774`): the serialized size is 109, the fees are 2,170 and
2,530 atoms, and the two subtractions of lines 244, 253 and 258 wrap. -/

/-- C2 fails on the code: the exact leftover `100 - (2 ^ 63 - 1024) - 2170` is
far below the dust limit, yet line 244 computes `2 ^ 63 - 1046`, the check
passes and `main` builds the draft instead of stopping with the
insufficient-funds error. -/
theorem insufficiency_check_overflow :
    feeWithoutChange (totalBytes (exampleWallet 100) (exampleTx 100 9223372036854774784))
      = 2170 ∧
    (100 : Int) - 9223372036854774784 - 2170 < dustLimit ∧
    sub64 (sub64 100 9223372036854774784) 2170 = 9223372036854774762 ∧
    feeAndChange (exampleWallet 100) [] (exampleTx 100 9223372036854774784)
      100 9223372036854774784 = .ok overflowReport ∧
    buildDraft (exampleWallet 100) (exampleOpts 9223372036854774784) = .ok overflowReport ∧
    buildDraft (exampleWallet 100) (exampleOpts 9223372036854774784)
      ≠ .error .insufficientFunds := by
  refine ⟨by decide, by decide, by decide, by rfl, by rfl, ?_⟩
  have h : buildDraft (exampleWallet 100) (exampleOpts 9223372036854774784)
      = .ok overflowReport := by rfl
  rw [h]
  intro hc
  cases hc

/-- C3 fails on the code: the build passes the check and appends a change
output of `2 ^ 63 - 1406` atoms although the exact
`totalInputAmount - totalOutputAmount - feeWithChange` is negative, so not
above the dust limit, and is not the value of the change output. -/
theorem change_decision_overflow :
    feeWithChange (totalBytes (exampleWallet 100) (exampleTx 100 9223372036854774784))
      = 2530 ∧
    ¬ (dustLimit < (100 : Int) - 9223372036854774784 - 2530) ∧
    (∃ r, feeAndChange (exampleWallet 100) [] (exampleTx 100 9223372036854774784)
        100 9223372036854774784 = .ok r ∧
      r.tx.TxOut = (exampleTx 100 9223372036854774784).TxOut
        ++ [NewTxOut 9223372036854774402 p2pkhScript] ∧
      r.changeAmt = 9223372036854774402 ∧
      r.changeAmt ≠ 100 - 9223372036854774784 - 2530 ∧
      r.estimatedFee = 2530) := by
  exact ⟨by decide, by decide, overflowReport, by rfl, rfl, rfl, by decide, rfl⟩

/-- C4 fails on the code: the build succeeds with a recorded fee of 2,530
atoms although `totalInputAmount - totalOutputAmount - estimatedFee` is
negative: the outputs of the draft are worth far more than its input. -/
theorem dust_floor_overflow :
    ∃ r, buildDraft (exampleWallet 100) (exampleOpts 9223372036854774784) = .ok r ∧
      r.tx.TxIn.map (fun ti => ti.ValueIn) = [100] ∧
      r.tx.TxOut.map (fun txo => txo.Value) = [9223372036854774784, 9223372036854774402] ∧
      r.estimatedFee = 2530 ∧
      (100 : Int) - 9223372036854774784 - r.estimatedFee < 0 ∧
      (r.tx.TxIn.map (fun ti => ti.ValueIn)).sum
        < (r.tx.TxOut.map (fun txo => txo.Value)).sum := by
  exact ⟨overflowReport, by rfl, by rfl, by rfl, rfl, by decide, by decide⟩

theorem exampleTx_size (amount dest : Int) :
    (exampleWallet amount).SerializeSize (exampleTx amount dest) = 109 := by
  rfl

theorem exampleTx_resolved (amount dest : Int) :
    resolveLoop (exampleWallet amount) 0 (exampleOpts dest).Utxos NewMsgTx 0
      = .ok ({ TxIn := (exampleTx amount dest).TxIn, TxOut := [] }, add64 0 amount) := by
  rfl

/-- C10. No-change branch bound: every build that succeeds without a change
output has `changeAmt = 0`, records the size `estimatedSignedSize = baseSize +
108 * numInputs` (no 36-byte allowance) and the fee `feeWithoutChange`, and its
leftover `L = totalInputAmount - totalOutputAmount - feeWithoutChange` is at
least `dustLimit` while the leftover after `feeWithChange` is at most
`dustLimit`.  For every serialized size that is not negative and for which
`(size + 108 n + 36) * 10000` does not overflow `int64`, the fees are
`feeWithoutChange = 10 * estimatedSignedSize` and `feeWithChange =
feeWithoutChange + 360`, so `dustLimit ≤ L ≤ dustLimit + (feeWithChange -
feeWithoutChange)`, that is `2000 ≤ L ≤ 2360`. -/
theorem no_change_bound (ext : Externals) (changeAddr : Address) (tx : MsgTx)
    (totalInputAmount totalOutputAmount : Int) (r : Report)
    (h : feeAndChange ext changeAddr tx totalInputAmount totalOutputAmount = .ok r)
    (hno : r.tx.TxOut = tx.TxOut) :
    r.changeAmt = 0 ∧
    r.estimatedBytes
      = add64 (wrap64 (ext.SerializeSize tx)) (wrap64 (108 * (tx.TxIn.length : Int))) ∧
    r.estimatedFee = feeWithoutChange (totalBytes ext tx) ∧
    dustLimit ≤ sub64 (sub64 totalInputAmount totalOutputAmount)
      (feeWithoutChange (totalBytes ext tx)) ∧
    sub64 (sub64 totalInputAmount totalOutputAmount) (feeWithChange (totalBytes ext tx))
      ≤ dustLimit ∧
    (0 ≤ ext.SerializeSize tx →
      (ext.SerializeSize tx + 108 * (tx.TxIn.length : Int) + 36) * 10000 < 2 ^ 63 →
      r.estimatedBytes = ext.SerializeSize tx + 108 * (tx.TxIn.length : Int) ∧
      feeWithoutChange (totalBytes ext tx)
        = 10 * (ext.SerializeSize tx + 108 * (tx.TxIn.length : Int)) ∧
      feeWithChange (totalBytes ext tx) - feeWithoutChange (totalBytes ext tx) = 360 ∧
      sub64 (sub64 totalInputAmount totalOutputAmount) (feeWithoutChange (totalBytes ext tx))
        ≤ dustLimit
          + (feeWithChange (totalBytes ext tx) - feeWithoutChange (totalBytes ext tx)) ∧
      2000 ≤ sub64 (sub64 totalInputAmount totalOutputAmount)
        (10 * (ext.SerializeSize tx + 108 * (tx.TxIn.length : Int))) ∧
      sub64 (sub64 totalInputAmount totalOutputAmount)
        (10 * (ext.SerializeSize tx + 108 * (tx.TxIn.length : Int))) ≤ 2360) := by
  have hbranch : r.changeAmt = 0 ∧ r.estimatedBytes = totalBytes ext tx ∧
      r.estimatedFee = feeWithoutChange (totalBytes ext tx) ∧
      2000 ≤ sub64 (sub64 totalInputAmount totalOutputAmount)
        (feeWithoutChange (totalBytes ext tx)) ∧
      sub64 (sub64 totalInputAmount totalOutputAmount) (feeWithChange (totalBytes ext tx))
        ≤ 2000 := by
    rw [feeAndChange_eq] at h
    split at h
    · cases h
    · rename_i hpass
      split at h
      · cases hpk : ext.PayToAddrScript changeAddr with
        | none => rw [hpk] at h; cases h
        | some pk =>
          rw [hpk] at h
          injection h with h
          subst h
          have := congrArg List.length hno
          simp [MsgTx.AddTxOut] at this
      · rename_i hc
        injection h with h
        subst h
        exact ⟨rfl, rfl, rfl, by omega, by omega⟩
  obtain ⟨h1, h2, h3, h4, h5⟩ := hbranch
  rw [dustLimit_eq]
  refine ⟨h1, by rw [h2, totalBytes_eq], h3, h4, h5, ?_⟩
  intro hB hsize
  have htb := totalBytes_of_size ext tx hB hsize
  obtain ⟨-, hf1, hf2, -⟩ := fees_of_size _ _ hB (by omega) hsize
  rw [htb] at h4 h5 ⊢
  rw [hf1] at h4 ⊢
  rw [hf2] at h5 ⊢
  rw [h2, htb]
  generalize ext.SerializeSize tx + 108 * (tx.TxIn.length : Int) = ess at h4 h5 ⊢
  refine ⟨rfl, rfl, by omega, ?_, h4, ?_⟩
  · unfold sub64 wrap64 at h4 h5 ⊢; omega
  · unfold sub64 wrap64 at h4 h5 ⊢; omega

theorem sum64_singleton (x : Int) (h₁ : -2 ^ 63 ≤ x) (h₂ : x < 2 ^ 63) : sum64 [x] = x := by
  show add64 0 x = x
  unfold add64; rw [Int.zero_add]; exact wrap64_of_range h₁ h₂

/-- C7. Scenario A and the fee formula: one input of 100,000,000 atoms, one
destination of 50,000,000 atoms and a draft of serialized size `B` with
`0 ≤ B` and `10 * (B + 144) < 49,998,000`.  The build succeeds and appends a
change output of exactly `100,000,000 - 50,000,000 - 10 * (B + 144)`; the
recorded fee is `feeWithChange = (B + 1 * 108 + 36) * 10000 / 1000 = 10 * (B +
144)` and the recorded size is `B + 144`. -/
theorem scenario_A (ext : Externals) (changeAddr : Address) (ti : TxIn) (txo : TxOut)
    (B : Int) (pk : Script)
    (hin : ti.ValueIn = 100000000) (hout : txo.Value = 50000000)
    (hsize : ext.SerializeSize { TxIn := [ti], TxOut := [txo] } = B)
    (hB : 0 ≤ B) (hlt : 10 * (B + 144) < 49998000)
    (hpk : ext.PayToAddrScript changeAddr = some pk) :
    feeAndChange ext changeAddr { TxIn := [ti], TxOut := [txo] }
        (sum64 [ti.ValueIn]) (sum64 [txo.Value])
      = .ok { tx := { TxIn := [ti],
                      TxOut := [txo, NewTxOut (100000000 - 50000000 - 10 * (B + 144)) pk] },
              estimatedFee := 10 * (B + 144),
              estimatedBytes := B + 144,
              changeAmt := 100000000 - 50000000 - 10 * (B + 144) } ∧
    feeWithChange (totalBytes ext { TxIn := [ti], TxOut := [txo] })
      = (B + 1 * 108 + 36) * 10000 / 1000 ∧
    (B + 1 * 108 + 36) * 10000 / 1000 = 10 * (B + 144) := by
  have hs : (ext.SerializeSize { TxIn := [ti], TxOut := [txo] }
      + 108 * ((({ TxIn := [ti], TxOut := [txo] } : MsgTx).TxIn.length : Nat) : Int) + 36)
      * 10000 < 2 ^ 63 := by
    rw [hsize]; simp only [List.length_singleton, Nat.cast_one]; omega
  have hB2 : 0 ≤ ext.SerializeSize { TxIn := [ti], TxOut := [txo] } := by rw [hsize]; exact hB
  have htb := totalBytes_of_size ext _ hB2 hs
  obtain ⟨-, hf1, hf2, hf3⟩ := fees_of_size _ _ hB2 (by omega) hs
  rw [hsize] at htb hf1 hf2 hf3
  simp only [List.length_singleton, Nat.cast_one] at htb hf1 hf2 hf3
  rw [feeAndChange_eq, htb, hf1, hf2, hf3, hpk, hin, hout,
    sum64_singleton 100000000 (by omega) (by omega),
    sum64_singleton 50000000 (by omega) (by omega)]
  have e1 : sub64 100000000 50000000 = 50000000 := by decide
  have e2 : sub64 50000000 (10 * (B + 108 * 1)) = 50000000 - 10 * (B + 108) := by
    unfold sub64; rw [wrap64_of_range (by omega) (by omega)]; omega
  have e3 : sub64 50000000 (10 * (B + 108 * 1 + 36)) = 100000000 - 50000000 - 10 * (B + 144) := by
    unfold sub64; rw [wrap64_of_range (by omega) (by omega)]; omega
  rw [e1, e2, e3, if_neg (by omega), if_pos (by omega)]
  refine ⟨?_, by omega, by omega⟩
  have e4 : 10 * (B + 108 * 1 + 36) = 10 * (B + 144) := by omega
  have e5 : B + 108 * 1 + 36 = B + 144 := by omega
  rw [e4, e5]
  rfl

/-- C5 (as amended). Scenario B: let `totalInputAmount = totalOutputAmount +
feeWithoutChange + s`.  For a surplus `0 ≤ s < dustLimit` the build stops with
the insufficient-funds error.  For a draft whose size does not overflow the fee
computation and a surplus `dustLimit ≤ s ≤ dustLimit + (feeWithChange -
feeWithoutChange)`, that is `2000 ≤ s ≤ 2360`, the build succeeds, creates no
change output (`changeAmt = 0`), records `feeWithoutChange`, and the whole
surplus goes to the fee: inputs minus outputs is `feeWithoutChange + s`. -/
theorem scenario_B_amended (ext : Externals) (changeAddr : Address) (tx : MsgTx)
    (totalInputAmount totalOutputAmount s : Int)
    (hs : totalInputAmount
      = add64 (add64 totalOutputAmount (feeWithoutChange (totalBytes ext tx))) s) :
    dustLimit = 2000 ∧
    (0 ≤ s → s < dustLimit →
      feeAndChange ext changeAddr tx totalInputAmount totalOutputAmount
        = .error .insufficientFunds) ∧
    (0 ≤ ext.SerializeSize tx →
      (ext.SerializeSize tx + 108 * (tx.TxIn.length : Int) + 36) * 10000 < 2 ^ 63 →
      dustLimit + (feeWithChange (totalBytes ext tx) - feeWithoutChange (totalBytes ext tx))
        = 2360 ∧
      (dustLimit ≤ s →
        s ≤ dustLimit
          + (feeWithChange (totalBytes ext tx) - feeWithoutChange (totalBytes ext tx)) →
        feeAndChange ext changeAddr tx totalInputAmount totalOutputAmount
          = .ok { tx := tx,
                  estimatedFee := feeWithoutChange (totalBytes ext tx),
                  estimatedBytes := totalBytes ext tx,
                  changeAmt := 0 } ∧
        sub64 totalInputAmount totalOutputAmount
          = add64 (feeWithoutChange (totalBytes ext tx)) s)) := by
  rw [feeAndChange_eq, dustLimit_eq]
  refine ⟨rfl, ?_, ?_⟩
  · intro h0 h1
    subst hs
    rw [if_pos]
    generalize feeWithoutChange (totalBytes ext tx) = f
    unfold sub64 add64 wrap64; omega
  · intro hB hsize
    have htb := totalBytes_of_size ext tx hB hsize
    obtain ⟨-, hf1, hf2, -⟩ := fees_of_size _ _ hB (by omega) hsize
    rw [htb, hf1] at hs
    rw [htb, hf1, hf2]
    generalize ext.SerializeSize tx + 108 * (tx.TxIn.length : Int) = ess at hs hsize ⊢
    subst hs
    refine ⟨by omega, ?_⟩
    intro h0 h1
    rw [if_neg, if_neg]
    · refine ⟨rfl, ?_⟩
      unfold sub64 add64 wrap64; omega
    · unfold sub64 add64 wrap64; omega
    · unfold sub64 add64 wrap64; omega

/-- C5 as stated fails: with one input of 50,004,169 atoms and one destination
of 50,000,000 atoms the fee without change is 2,170 atoms and the surplus is
1,999 atoms, below the dust limit, and the build stops with the
insufficient-funds error instead of succeeding. -/
theorem scenario_B_counterexample :
    feeWithoutChange (totalBytes (exampleWallet 50004169) (exampleTx 50004169 50000000)) = 2170 ∧
    (50004169 : Int) = 50000000 + 2170 + 1999 ∧ (0 : Int) ≤ 1999 ∧ 1999 < dustLimit ∧
    feeAndChange (exampleWallet 50004169) [] (exampleTx 50004169 50000000) 50004169 50000000
      = .error .insufficientFunds ∧
    buildDraft (exampleWallet 50004169) (exampleOpts 50000000) = .error .insufficientFunds := by
  refine ⟨by decide, by decide, by decide, by decide, by rfl, by rfl⟩

/-! ## The resolver and the assembler keep the totals in step with the draft -/

theorem foldl_add64_append_singleton (t : Int) (l : List Int) (x : Int) :
    List.foldl add64 t (l ++ [x]) = add64 (List.foldl add64 t l) x := by
  rw [List.foldl_append]; rfl

theorem sum64_append_singleton (l : List Int) (x : Int) :
    sum64 (l ++ [x]) = add64 (sum64 l) x :=
  foldl_add64_append_singleton 0 l x

theorem creditLoop_ok {txh : Hash} {tree target : Int} {cs : List Credit} {tx : MsgTx}
    {tot : Int} {found : Bool} {tx2 : MsgTx} {tot2 : Int}
    (h : creditLoop txh tree target cs tx tot = .ok (found, tx2, tot2)) :
    (found = false ∧ tx2 = tx ∧ tot2 = tot) ∨
    (found = true ∧ ∃ c, c ∈ cs ∧ (c.Index : Int) = target ∧
      tx2 = tx.AddTxIn (NewTxIn (NewOutPoint txh c.Index tree) c.Amount []) ∧
      tot2 = add64 tot c.Amount) := by
  induction cs with
  | nil =>
    simp only [creditLoop] at h
    injection h with h
    injection h with h1 h2
    injection h2 with h2 h3
    exact Or.inl ⟨h1.symm, h2.symm, h3.symm⟩
  | cons c rest ih =>
    simp only [creditLoop] at h
    split at h
    · rcases ih h with h1 | ⟨hf, c2, hc2, hidx, htx, htot⟩
      · exact Or.inl h1
      · exact Or.inr ⟨hf, c2, List.mem_cons_of_mem _ hc2, hidx, htx, htot⟩
    · rename_i hidx
      split at h
      · cases h
      · injection h with h
        injection h with h1 h2
        injection h2 with h2 h3
        exact Or.inr ⟨h1.symm, c, List.mem_cons_self _ _, not_not.mp hidx, h2.symm, h3.symm⟩

theorem resolveUtxo_ok {ext : Externals} {i : Nat} {u : UtxoArg} {tx : MsgTx} {tot : Int}
    {tx2 : MsgTx} {tot2 : Int} (h : resolveUtxo ext i u tx tot = .ok (tx2, tot2)) :
    ∃ ti : TxIn, tx2 = tx.AddTxIn ti ∧ tot2 = add64 tot ti.ValueIn := by
  unfold resolveUtxo at h
  split at h
  · cases h
  · cases h
  · split at h
    · cases h
    · cases h
    · split at h
      · cases h
      · dsimp only at h
        split at h
        · cases h
        · rename_i found tx3 tot3 hloop
          split at h
          · cases h
          · rename_i hfound
            injection h with h
            injection h with h1 h2
            subst h1 h2
            rcases creditLoop_ok hloop with ⟨hf, -, -⟩ | ⟨-, c, -, -, htx, htot⟩
            · rw [hf] at hfound; simp at hfound
            · exact ⟨_, htx, htot⟩

theorem resolveLoop_ok {ext : Externals} {us : List UtxoArg} {i : Nat} {tx : MsgTx} {tot : Int}
    {tx2 : MsgTx} {tot2 : Int} (h : resolveLoop ext i us tx tot = .ok (tx2, tot2)) :
    ∃ tis : List TxIn, tx2 = { TxIn := tx.TxIn ++ tis, TxOut := tx.TxOut } ∧
      tot2 = List.foldl add64 tot (tis.map (fun ti => ti.ValueIn)) ∧
      tis.length = us.length := by
  induction us generalizing i tx tot with
  | nil =>
    simp only [resolveLoop] at h
    injection h with h
    injection h with h1 h2
    subst h1 h2
    exact ⟨[], by simp, rfl, rfl⟩
  | cons u rest ih =>
    simp only [resolveLoop] at h
    split at h
    · cases h
    · rename_i tx3 tot3 hu
      obtain ⟨ti, htx3, htot3⟩ := resolveUtxo_ok hu
      obtain ⟨tis, htx2, htot2, hlen⟩ := ih h
      subst htx3 htot3
      refine ⟨ti :: tis, ?_, ?_, by simp [hlen]⟩
      · rw [htx2]; simp [MsgTx.AddTxIn]
      · rw [htot2]; rfl

theorem outputLoop_ok {ext : Externals} {addrs : List (Option Address)}
    {amounts : List (Option Int)} {tx : MsgTx} {tot : Int} {tx2 : MsgTx} {tot2 : Int}
    (h : outputLoop ext addrs amounts tx tot = .ok (tx2, tot2)) :
    ∃ tos : List TxOut, tx2 = { TxIn := tx.TxIn, TxOut := tx.TxOut ++ tos } ∧
      tot2 = List.foldl add64 tot (tos.map (fun o => o.Value)) ∧
      tos.length = addrs.length := by
  induction addrs generalizing amounts tx tot with
  | nil =>
    simp only [outputLoop] at h
    injection h with h
    injection h with h1 h2
    subst h1 h2
    exact ⟨[], by simp, rfl, rfl⟩
  | cons a rest ih =>
    unfold outputLoop at h
    split at h
    · cases h
    · split at h
      · cases h
      · cases h
      · split at h
        · cases h
        · rename_i amt amounts2 _ pk hpk
          obtain ⟨tos, htx2, htot2, hlen⟩ := ih h
          refine ⟨NewTxOut amt pk :: tos, ?_, ?_, by simp [hlen]⟩
          · rw [htx2]; simp [MsgTx.AddTxOut]
          · rw [htot2]; rfl

/-- A finished draft, with the totals `main` has accumulated for it. -/
theorem buildDraft_ok {ext : Externals} {o : opts} {r : Report}
    (h : buildDraft ext o = .ok r) :
    ∃ (changeAddr : Address) (tx : MsgTx),
      tx.TxIn.length = o.Utxos.length ∧ tx.TxOut.length = o.DestAddrs.length ∧
      resolveChangeAddr ext o = .ok changeAddr ∧
      resolveLoop ext 0 o.Utxos NewMsgTx 0 = .ok ({ TxIn := tx.TxIn, TxOut := [] },
        sum64 (tx.TxIn.map (fun ti => ti.ValueIn))) ∧
      outputLoop ext o.DestAddrs o.DestAmounts { TxIn := tx.TxIn, TxOut := [] } 0
        = .ok (tx, sum64 (tx.TxOut.map (fun o => o.Value))) ∧
      feeAndChange ext changeAddr tx (sum64 (tx.TxIn.map (fun ti => ti.ValueIn)))
        (sum64 (tx.TxOut.map (fun o => o.Value))) = .ok r := by
  unfold buildDraft at h
  split at h
  · cases h
  · split at h
    · cases h
    · split at h
      · cases h
      · split at h
        · cases h
        · split at h
          · cases h
          · rename_i changeAddr hca
            split at h
            · cases h
            · rename_i tx1 tot1 hres
              split at h
              · cases h
              · rename_i tx2 tot2 hout
                obtain ⟨tis, htx1, htot1, hlen1⟩ := resolveLoop_ok hres
                obtain ⟨tos, htx2, htot2, hlen2⟩ := outputLoop_ok hout
                simp only [NewMsgTx, List.nil_append] at htx1
                subst htx1
                simp only [List.nil_append] at htx2
                subst htx2
                subst htot1 htot2
                exact ⟨changeAddr, _, hlen1, hlen2, hca, hres, hout, h⟩

theorem foldl_add64_range (l : List Int) (t : Int) (h₁ : -2 ^ 63 ≤ t) (h₂ : t < 2 ^ 63) :
    -2 ^ 63 ≤ List.foldl add64 t l ∧ List.foldl add64 t l < 2 ^ 63 := by
  induction l generalizing t with
  | nil => exact ⟨h₁, h₂⟩
  | cons x xs ih => exact ih (add64 t x) (wrap64_ge _) (wrap64_lt _)

theorem sum64_range (l : List Int) : -2 ^ 63 ≤ sum64 l ∧ sum64 l < 2 ^ 63 :=
  foldl_add64_range l 0 (by omega) (by omega)

/-- Without overflow the accumulated total is the exact sum: for amounts that
are not negative and whose sum is below `2 ^ 63`. -/
theorem sum64_eq_sum (l : List Int) (hpos : ∀ x ∈ l, 0 ≤ x) (hsum : l.sum < 2 ^ 63) :
    sum64 l = l.sum := by
  have key : ∀ (l : List Int) (t : Int), 0 ≤ t → (∀ x ∈ l, 0 ≤ x) → t + l.sum < 2 ^ 63 →
      List.foldl add64 t l = t + l.sum := by
    intro l
    induction l with
    | nil => intro t _ _ _; simp
    | cons x xs ih =>
      intro t ht hp hs
      have hx : 0 ≤ x := hp x (List.mem_cons_self _ _)
      have hxs : ∀ y ∈ xs, 0 ≤ y := fun y hy => hp y (List.mem_cons_of_mem _ hy)
      have hnn : 0 ≤ xs.sum := List.sum_nonneg hxs
      rw [List.sum_cons] at hs
      have e : add64 t x = t + x := wrap64_of_range (by omega) (by omega)
      rw [List.foldl_cons, e, ih (t + x) (by omega) hxs (by omega), List.sum_cons]
      omega
  have := key l 0 (le_refl 0) hpos (by omega)
  rw [Int.zero_add] at this
  exact this

theorem feeAndChange_ok_shape {ext : Externals} {changeAddr : Address} {tx : MsgTx}
    {tin tout : Int} {r : Report} (h : feeAndChange ext changeAddr tx tin tout = .ok r) :
    r.tx.TxIn = tx.TxIn ∧
    ((r.tx.TxOut = tx.TxOut ∧ r.changeAmt = 0) ∨
      ∃ pk, r.tx.TxOut = tx.TxOut ++ [NewTxOut r.changeAmt pk]) := by
  rw [feeAndChange_eq] at h
  split at h
  · cases h
  · split at h
    · cases hpk : ext.PayToAddrScript changeAddr with
      | none => rw [hpk] at h; cases h
      | some pk =>
        rw [hpk] at h
        injection h with h
        subst h
        exact ⟨rfl, Or.inr ⟨pk, rfl⟩⟩
    · injection h with h
      subst h
      exact ⟨rfl, Or.inl ⟨rfl, rfl⟩⟩

/-- C1 (as amended). Conservation, in exact integers: take a build that
succeeds on amounts that do not overflow (input amounts and destination
amounts not negative, each total below `2 ^ 62` atoms, a serialized size that
is not negative and whose fee products fit `int64`).  When a change output was
appended (`changeAmt ≠ 0`) the recorded fee is `feeWithChange = 10 *
(estimatedSignedSize + 36)` and the sum of the input amounts equals the sum of
the destination outputs plus `changeAmt` plus `estimatedFee`, which is the sum
of all outputs of the final transaction plus `estimatedFee`.  When none was
appended (`changeAmt = 0`) the recorded fee is `feeWithoutChange = 10 *
estimatedSignedSize`, and the sum of the inputs exceeds the sum of the outputs
plus `estimatedFee` by a leftover `L` with `dustLimit ≤ L ≤ dustLimit + 360`:
the stated equality does not hold in that branch. -/
theorem conservation_amended (ext : Externals) (o : opts) (r : Report)
    (h : buildDraft ext o = .ok r)
    (hin : ∀ ti ∈ r.tx.TxIn, 0 ≤ ti.ValueIn)
    (hinsum : (r.tx.TxIn.map (fun ti => ti.ValueIn)).sum < 2 ^ 62)
    (hout : ∀ txo ∈ r.tx.TxOut.take o.DestAddrs.length, 0 ≤ txo.Value)
    (houtsum : ((r.tx.TxOut.take o.DestAddrs.length).map (fun txo => txo.Value)).sum < 2 ^ 62)
    (hB : 0 ≤ ext.SerializeSize { TxIn := r.tx.TxIn, TxOut := r.tx.TxOut.take o.DestAddrs.length })
    (hsize : (ext.SerializeSize { TxIn := r.tx.TxIn, TxOut := r.tx.TxOut.take o.DestAddrs.length } + 108 * (r.tx.TxIn.length : Int) + 36) * 10000 < 2 ^ 63) :
    (r.changeAmt ≠ 0 →
      (∃ pk, r.tx.TxOut = r.tx.TxOut.take o.DestAddrs.length ++ [NewTxOut r.changeAmt pk]) ∧
      r.estimatedFee = feeWithChange (totalBytes ext { TxIn := r.tx.TxIn, TxOut := r.tx.TxOut.take o.DestAddrs.length }) ∧
      r.estimatedFee = 10 * (ext.SerializeSize { TxIn := r.tx.TxIn, TxOut := r.tx.TxOut.take o.DestAddrs.length } + 108 * (r.tx.TxIn.length : Int) + 36) ∧
      (r.tx.TxIn.map (fun ti => ti.ValueIn)).sum = ((r.tx.TxOut.take o.DestAddrs.length).map (fun txo => txo.Value)).sum + r.changeAmt + r.estimatedFee ∧
      (r.tx.TxIn.map (fun ti => ti.ValueIn)).sum
        = (r.tx.TxOut.map (fun txo => txo.Value)).sum + r.estimatedFee) ∧
    (r.changeAmt = 0 →
      r.tx.TxOut = r.tx.TxOut.take o.DestAddrs.length ∧
      r.estimatedFee = feeWithoutChange (totalBytes ext { TxIn := r.tx.TxIn, TxOut := r.tx.TxOut.take o.DestAddrs.length }) ∧
      r.estimatedFee = 10 * (ext.SerializeSize { TxIn := r.tx.TxIn, TxOut := r.tx.TxOut.take o.DestAddrs.length } + 108 * (r.tx.TxIn.length : Int)) ∧
      dustLimit ≤ (r.tx.TxIn.map (fun ti => ti.ValueIn)).sum - ((r.tx.TxOut.take o.DestAddrs.length).map (fun txo => txo.Value)).sum - r.estimatedFee ∧
      (r.tx.TxIn.map (fun ti => ti.ValueIn)).sum - ((r.tx.TxOut.take o.DestAddrs.length).map (fun txo => txo.Value)).sum - r.estimatedFee ≤ dustLimit + 360 ∧
      (r.tx.TxIn.map (fun ti => ti.ValueIn)).sum ≠ ((r.tx.TxOut.take o.DestAddrs.length).map (fun txo => txo.Value)).sum + r.changeAmt + r.estimatedFee) := by
  obtain ⟨changeAddr, tx, -, hlen, -, -, -, hfc⟩ := buildDraft_ok h
  obtain ⟨hTxIn, hshape⟩ := feeAndChange_ok_shape hfc
  have htake : r.tx.TxOut.take o.DestAddrs.length = tx.TxOut := by
    rcases hshape with ⟨h1, -⟩ | ⟨pk, h1⟩
    · rw [h1, ← hlen, List.take_length]
    · rw [h1, ← hlen, List.take_left]
  rw [hTxIn] at hin hinsum
  rw [htake] at hout houtsum
  rw [htake, hTxIn] at hB hsize ⊢
  have heta : ({ TxIn := tx.TxIn, TxOut := tx.TxOut } : MsgTx) = tx := rfl
  rw [heta] at hB hsize ⊢
  have hi0 : 0 ≤ (tx.TxIn.map (fun ti => ti.ValueIn)).sum := by
    apply List.sum_nonneg
    intro x hx
    obtain ⟨ti, hti, rfl⟩ := List.mem_map.mp hx
    exact hin ti hti
  have ho0 : 0 ≤ (tx.TxOut.map (fun txo => txo.Value)).sum := by
    apply List.sum_nonneg
    intro x hx
    obtain ⟨txo, htxo, rfl⟩ := List.mem_map.mp hx
    exact hout txo htxo
  have hisum : sum64 (tx.TxIn.map (fun ti => ti.ValueIn))
      = (tx.TxIn.map (fun ti => ti.ValueIn)).sum := by
    apply sum64_eq_sum
    · intro x hx
      obtain ⟨ti, hti, rfl⟩ := List.mem_map.mp hx
      exact hin ti hti
    · omega
  have hosum : sum64 (tx.TxOut.map (fun txo => txo.Value))
      = (tx.TxOut.map (fun txo => txo.Value)).sum := by
    apply sum64_eq_sum
    · intro x hx
      obtain ⟨txo, htxo, rfl⟩ := List.mem_map.mp hx
      exact hout txo htxo
    · omega
  have htb := totalBytes_of_size ext tx hB hsize
  obtain ⟨-, hf1, hf2, -⟩ := fees_of_size _ _ hB (by omega) hsize
  rw [hisum, hosum, feeAndChange_exact ext changeAddr tx _ _ hB hsize hi0 hinsum ho0 houtsum]
    at hfc
  rw [htb, hf1, hf2, dustLimit_eq]
  generalize (tx.TxIn.map (fun ti => ti.ValueIn)).sum = tin at hfc hi0 hinsum ⊢
  generalize hO : (tx.TxOut.map (fun txo => txo.Value)).sum = tout at hfc ho0 houtsum ⊢
  generalize ext.SerializeSize tx + 108 * (tx.TxIn.length : Int) = ess at hfc hsize ⊢
  split at hfc
  · cases hfc
  · rename_i hpass
    split at hfc
    · rename_i hc
      cases hpk : ext.PayToAddrScript changeAddr with
      | none => rw [hpk] at hfc; cases hfc
      | some pk =>
        rw [hpk] at hfc
        injection hfc with hfc
        subst hfc
        refine ⟨fun _ => ⟨⟨pk, rfl⟩, rfl, rfl, ?_, ?_⟩, fun h0 => ?_⟩
        · show tin = tout + (tin - tout - 10 * (ess + 36)) + 10 * (ess + 36)
          omega
        · show tin = ((tx.TxOut ++ [NewTxOut (tin - tout - 10 * (ess + 36)) pk]).map
            (fun txo => txo.Value)).sum + 10 * (ess + 36)
          rw [List.map_append, List.sum_append, hO]
          simp only [NewTxOut, List.map_cons, List.map_nil, List.sum_cons, List.sum_nil]
          omega
        · exfalso
          have h0 : tin - tout - 10 * (ess + 36) = 0 := h0
          omega
    · rename_i hc
      injection hfc with hfc
      subst hfc
      refine ⟨fun hne => absurd rfl hne, fun _ => ⟨rfl, rfl, rfl, ?_, ?_, ?_⟩⟩
      · show 2000 ≤ tin - tout - 10 * ess
        omega
      · show tin - tout - 10 * ess ≤ 2000 + 360
        omega
      · show tin ≠ tout + 0 + 10 * ess
        omega

/-- C1 as stated fails in the branch without change: one input of 100,004,170
atoms and one destination of 100,000,000 atoms give a draft with no change
output and a recorded fee of 2,170 atoms, so inputs and outputs plus recorded
fee differ by 2,000 atoms. -/
theorem conservation_counterexample :
    ∃ r, buildDraft (exampleWallet 100004170) (exampleOpts 100000000) = .ok r ∧
      r.tx.TxIn.map (fun ti => ti.ValueIn) = [100004170] ∧
      r.tx.TxOut.map (fun txo => txo.Value) = [100000000] ∧
      r.changeAmt = 0 ∧ r.estimatedFee = 2170 ∧
      (r.tx.TxIn.map (fun ti => ti.ValueIn)).sum
        ≠ (r.tx.TxOut.map (fun txo => txo.Value)).sum + r.changeAmt + r.estimatedFee ∧
      sum64 (r.tx.TxIn.map (fun ti => ti.ValueIn))
        ≠ add64 (add64 (sum64 (r.tx.TxOut.map (fun txo => txo.Value))) r.changeAmt)
            r.estimatedFee ∧
      (100004170 : Int) ≠ 100000000 + 0 + 2170 := by
  refine ⟨{ tx := exampleTx 100004170 100000000, estimatedFee := 2170, estimatedBytes := 217,
            changeAmt := 0 }, by rfl, by rfl, by rfl, rfl, rfl, by decide, by decide, by decide⟩

/-! ## The shuffle -/

theorem cons_set_perm {α : Type} (xs : List α) (j : Nat) (a b : α) (h : xs[j]? = some b) :
    (b :: xs.set j a).Perm (a :: xs) := by
  induction xs generalizing j with
  | nil => simp at h
  | cons y ys ih =>
    cases j with
    | zero =>
      simp only [List.getElem?_cons_zero, Option.some.injEq] at h
      subst h
      simp only [List.set_cons_zero]
      exact List.Perm.swap _ _ _
    | succ j =>
      simp only [List.getElem?_cons_succ] at h
      simp only [List.set_cons_succ]
      exact (List.Perm.swap y b _).trans
        (((ih j h).cons y).trans (List.Perm.swap a y _))

theorem set_set_perm {α : Type} (l : List α) (i j : Nat) (a b : α)
    (hi : l[i]? = some a) (hj : l[j]? = some b) : ((l.set i b).set j a).Perm l := by
  induction l generalizing i j with
  | nil => simp at hi
  | cons x xs ih =>
    cases i with
    | zero =>
      simp only [List.getElem?_cons_zero, Option.some.injEq] at hi
      subst hi
      cases j with
      | zero =>
        simp only [List.getElem?_cons_zero, Option.some.injEq] at hj
        subst hj
        simp
      | succ j =>
        simp only [List.getElem?_cons_succ] at hj
        simp only [List.set_cons_zero, List.set_cons_succ]
        exact cons_set_perm xs j x b hj
    | succ i =>
      simp only [List.getElem?_cons_succ] at hi
      cases j with
      | zero =>
        simp only [List.getElem?_cons_zero, Option.some.injEq] at hj
        subst hj
        simp only [List.set_cons_zero, List.set_cons_succ]
        exact cons_set_perm xs i x a hi
      | succ j =>
        simp only [List.getElem?_cons_succ] at hj
        simp only [List.set_cons_succ]
        exact (ih i j hi hj).cons x

theorem swapTxIn_ok {i j : Nat} {tx tx2 : MsgTx} (h : swapTxIn i j tx = some tx2) :
    tx2.TxIn.Perm tx.TxIn ∧ tx2.TxOut = tx.TxOut := by
  unfold swapTxIn at h
  split at h
  · rename_i a b hi hj
    injection h with h
    subst h
    exact ⟨set_set_perm _ _ _ _ _ hi hj, rfl⟩
  · cases h

theorem swapTxIn_some {i j : Nat} {tx : MsgTx} (hi : i < tx.TxIn.length)
    (hj : j < tx.TxIn.length) : ∃ tx2, swapTxIn i j tx = some tx2 := by
  unfold swapTxIn
  rw [List.getElem?_eq_getElem hi, List.getElem?_eq_getElem hj]
  exact ⟨_, rfl⟩

theorem shuffleLoop_ok {i : Nat} {reader : List Nat} {tx tx2 : MsgTx}
    (h : Rand.shuffleLoop swapTxIn i reader tx = some tx2) :
    tx2.TxIn.Perm tx.TxIn ∧ tx2.TxOut = tx.TxOut := by
  induction i generalizing reader tx with
  | zero =>
    simp only [Rand.shuffleLoop] at h
    injection h with h
    subst h
    exact ⟨List.Perm.refl _, rfl⟩
  | succ i ih =>
    simp only [Rand.shuffleLoop] at h
    split at h
    · cases h
    · split at h
      · cases h
      · rename_i tx3 hswap
        obtain ⟨hp, ho⟩ := swapTxIn_ok hswap
        obtain ⟨hp2, ho2⟩ := ih h
        exact ⟨hp2.trans hp, ho2.trans ho⟩

theorem Uint32_lt (v : Nat) : Rand.Uint32 v < 2 ^ 32 := by
  unfold Rand.Uint32
  exact Nat.mod_lt _ (by norm_num)

theorem prod_shift_lt (v n : Nat) (hn : 0 < n) : (Rand.Uint32 v * n) >>> 32 < n := by
  rw [Nat.shiftRight_eq_div_pow]
  apply Nat.div_lt_of_lt_mul
  exact Nat.mul_lt_mul_of_pos_right (Uint32_lt v) hn

theorem Uint32_good : Rand.Uint32 (2 ^ 31) = 1 := by decide

/-- With one accepted draw in reserve the rejection loop of `int31n` returns,
and returns an index below `n`. -/
theorem int31nRetry_enough (n thresh : Nat) (hn : 0 < n) (hn2 : n < 2 ^ 32) (ht : thresh ≤ n)
    (pre : List Nat) (k : Nat) :
    ∃ j pre2, Rand.int31nRetry n thresh (pre ++ List.replicate (k + 1) (2 ^ 31))
        = some (j, pre2 ++ List.replicate k (2 ^ 31)) ∧ j < n := by
  induction pre with
  | nil =>
    refine ⟨_, [], ?_, prod_shift_lt (2 ^ 31) n hn⟩
    simp only [List.nil_append, List.replicate_succ, Rand.int31nRetry, Uint32_good, Nat.one_mul]
    rw [Nat.mod_eq_of_lt hn2, if_neg (by omega)]
  | cons d pre ih =>
    simp only [List.cons_append, Rand.int31nRetry]
    split
    · exact ih
    · refine ⟨_, pre ++ [2 ^ 31], ?_, prod_shift_lt d n hn⟩
      simp [List.replicate_succ]

theorem int31n_enough (n : Nat) (hn : 0 < n) (hn2 : n < 2 ^ 32) (pre : List Nat) (k : Nat) :
    ∃ j pre2, Rand.int31n n (pre ++ List.replicate (k + 1) (2 ^ 31))
        = some (j, pre2 ++ List.replicate k (2 ^ 31)) ∧ j < n := by
  cases pre with
  | nil =>
    refine ⟨_, [], ?_, prod_shift_lt (2 ^ 31) n hn⟩
    simp only [List.nil_append, List.replicate_succ, Rand.int31n, Uint32_good, Nat.one_mul]
    rw [Nat.mod_eq_of_lt hn2, if_neg (by omega)]
  | cons d pre =>
    simp only [List.cons_append, Rand.int31n]
    split
    · split
      · exact int31nRetry_enough n _ hn hn2 (Nat.le_of_lt (Nat.mod_lt _ hn)) pre k
      · refine ⟨_, pre ++ [2 ^ 31], ?_, prod_shift_lt d n hn⟩
        simp [List.replicate_succ]
    · refine ⟨_, pre ++ [2 ^ 31], ?_, prod_shift_lt d n hn⟩
      simp [List.replicate_succ]

theorem shuffleLoop_enough (i : Nat) (hi : i < 2 ^ 31 - 1) (pre : List Nat) (k : Nat)
    (hk : i ≤ k) (tx : MsgTx) (hlen : i < tx.TxIn.length ∨ i = 0) :
    ∃ tx2, Rand.shuffleLoop swapTxIn i (pre ++ List.replicate k (2 ^ 31)) tx = some tx2 := by
  induction i generalizing pre k tx with
  | zero => exact ⟨tx, rfl⟩
  | succ i ih =>
    obtain ⟨k2, rfl⟩ : ∃ k2, k = k2 + 1 := ⟨k - 1, by omega⟩
    have hlen2 : i + 1 < tx.TxIn.length := by omega
    obtain ⟨j, pre2, hj, hjlt⟩ := int31n_enough (i + 2) (by omega) (by omega) pre k2
    obtain ⟨tx3, hswap⟩ := @swapTxIn_some (i + 1) j tx hlen2 (by omega)
    have hl3 : tx3.TxIn.length = tx.TxIn.length := (swapTxIn_ok hswap).1.length_eq
    obtain ⟨tx4, h4⟩ := ih (by omega) pre2 k2 (by omega) tx3 (Or.inl (by omega))
    refine ⟨tx4, ?_⟩
    simp only [Rand.shuffleLoop]
    rw [if_neg (by omega), hj]
    simp only [hswap, h4]

/-- C9. Input order randomizer frame: whatever values the random source
delivers, a shuffle that returns leaves the inputs a permutation of the
finished input list (same length, same number of occurrences of every input),
leaves the output list as it was, and leaves fee, size and change amount as
computed; the same holds for `main` as a whole.  The shuffle returns as soon
as the source delivers enough values: after any values, one accepted draw for
each input suffices (for fewer than `2 ^ 31` inputs). -/
theorem shuffle_frame (reader : List Nat) :
    (∀ r r2, shuffleInputs reader r = .ok r2 →
      r2.tx.TxIn.Perm r.tx.TxIn ∧ r2.tx.TxIn.length = r.tx.TxIn.length ∧
      (∀ ti, r2.tx.TxIn.count ti = r.tx.TxIn.count ti) ∧
      r2.tx.TxOut = r.tx.TxOut ∧ r2.estimatedFee = r.estimatedFee ∧
      r2.estimatedBytes = r.estimatedBytes ∧ r2.changeAmt = r.changeAmt) ∧
    (∀ ext o r2, run ext reader o = .ok r2 →
      ∃ r, buildDraft ext o = .ok r ∧
        r2.tx.TxIn.Perm r.tx.TxIn ∧ r2.tx.TxOut = r.tx.TxOut ∧
        r2.estimatedFee = r.estimatedFee ∧ r2.estimatedBytes = r.estimatedBytes ∧
        r2.changeAmt = r.changeAmt) ∧
    (∀ r, r.tx.TxIn.length < 2 ^ 31 →
      ∃ r2, shuffleInputs (reader ++ List.replicate r.tx.TxIn.length (2 ^ 31)) r = .ok r2) := by
  have hframe : ∀ r r2, shuffleInputs reader r = .ok r2 →
      r2.tx.TxIn.Perm r.tx.TxIn ∧ r2.tx.TxIn.length = r.tx.TxIn.length ∧
      (∀ ti, r2.tx.TxIn.count ti = r.tx.TxIn.count ti) ∧
      r2.tx.TxOut = r.tx.TxOut ∧ r2.estimatedFee = r.estimatedFee ∧
      r2.estimatedBytes = r.estimatedBytes ∧ r2.changeAmt = r.changeAmt := by
    intro r r2 h
    unfold shuffleInputs at h
    split at h
    · cases h
    · rename_i tx2 hsh
      injection h with h
      subst h
      obtain ⟨hp, ho⟩ := shuffleLoop_ok hsh
      exact ⟨hp, hp.length_eq, fun ti => hp.count_eq ti, ho, rfl, rfl, rfl⟩
  refine ⟨hframe, ?_, ?_⟩
  · intro ext o r2 h
    unfold run at h
    split at h
    · cases h
    · rename_i r hb
      obtain ⟨h1, -, -, h4, h5, h6, h7⟩ := hframe r r2 h
      exact ⟨r, hb, h1, h4, h5, h6, h7⟩
  · intro r hlen
    obtain ⟨tx2, h2⟩ := shuffleLoop_enough (r.tx.TxIn.length - 1) (by omega) reader
      r.tx.TxIn.length (by omega) r.tx (by omega)
    refine ⟨{ r with tx := tx2 }, ?_⟩
    unfold shuffleInputs Rand.Shuffle
    rw [h2]

/-! ## Script shape -/

theorem creditLoop_skip (txh : Hash) (tree target : Int) (pre rest : List Credit)
    (tx : MsgTx) (tot : Int) (hpre : ∀ c ∈ pre, (c.Index : Int) ≠ target) :
    creditLoop txh tree target (pre ++ rest) tx tot = creditLoop txh tree target rest tx tot := by
  induction pre with
  | nil => rfl
  | cons c pre ih =>
    simp only [List.cons_append, creditLoop]
    rw [if_pos (hpre c (List.mem_cons_self _ _))]
    exact ih (fun c2 hc2 => hpre c2 (List.mem_cons_of_mem _ hc2))

/-- C6. Script-shape rejection: the tree is Stake (1) exactly for ticket
purchases, votes and revocations and Regular (0) otherwise.  When the credit
referenced by a utxo is resolved (it is the first credit of the looked-up
transaction with the target index), the build proceeds past it, with the new
input appended and its amount added, if and only if its output script has
exactly 25 bytes on the Regular tree or exactly 26 bytes on the Stake tree;
every other length stops the build with the unsupported-script error.  So do
in particular 24 or 27 bytes on either tree, 26 bytes on the Regular tree and
25 bytes on the Stake tree. -/
theorem script_shape (ext : Externals) (i : Nat) (txh : Hash) (targetIndex : Int)
    (details : TransactionDetails) (pre post : List Credit) (credit : Credit)
    (tx : MsgTx) (totalInputAmount : Int)
    (hget : ext.GetTransaction txh = some (some details))
    (hcredits : details.Credits = pre ++ credit :: post)
    (hpre : ∀ c ∈ pre, (c.Index : Int) ≠ targetIndex)
    (hidx : (credit.Index : Int) = targetIndex) :
    (treeOf details.TransactionType = 1 ↔
      details.TransactionType = .TICKET_PURCHASE ∨ details.TransactionType = .VOTE ∨
        details.TransactionType = .REVOCATION) ∧
    (treeOf details.TransactionType = 0 ↔
      ¬ (details.TransactionType = .TICKET_PURCHASE ∨ details.TransactionType = .VOTE ∨
        details.TransactionType = .REVOCATION)) ∧
    ((∃ res, resolveUtxo ext i (.ref txh (some targetIndex)) tx totalInputAmount = .ok res) ↔
      (treeOf details.TransactionType = 0 ∧ credit.OutputScript.length = 25) ∨
      (treeOf details.TransactionType = 1 ∧ credit.OutputScript.length = 26)) ∧
    ((treeOf details.TransactionType = 0 ∧ credit.OutputScript.length = 25) ∨
      (treeOf details.TransactionType = 1 ∧ credit.OutputScript.length = 26) →
      resolveUtxo ext i (.ref txh (some targetIndex)) tx totalInputAmount
        = .ok (tx.AddTxIn (NewTxIn (NewOutPoint txh credit.Index
            (treeOf details.TransactionType)) credit.Amount []),
          add64 totalInputAmount credit.Amount)) ∧
    (¬ ((treeOf details.TransactionType = 0 ∧ credit.OutputScript.length = 25) ∨
      (treeOf details.TransactionType = 1 ∧ credit.OutputScript.length = 26)) →
      resolveUtxo ext i (.ref txh (some targetIndex)) tx totalInputAmount
        = .error .unsupportedScript ∧
      ∀ rest, resolveLoop ext i (.ref txh (some targetIndex) :: rest) tx totalInputAmount
        = .error .unsupportedScript) ∧
    (credit.OutputScript.length = 24 ∨ credit.OutputScript.length = 27 →
      resolveUtxo ext i (.ref txh (some targetIndex)) tx totalInputAmount
        = .error .unsupportedScript) ∧
    (treeOf details.TransactionType = 0 → credit.OutputScript.length = 26 →
      resolveUtxo ext i (.ref txh (some targetIndex)) tx totalInputAmount
        = .error .unsupportedScript) ∧
    (treeOf details.TransactionType = 1 → credit.OutputScript.length = 25 →
      resolveUtxo ext i (.ref txh (some targetIndex)) tx totalInputAmount
        = .error .unsupportedScript) := by
  have htree : treeOf details.TransactionType = 0 ∨ treeOf details.TransactionType = 1 := by
    cases details.TransactionType <;> simp [treeOf]
  have hgood : (treeOf details.TransactionType = 0 ∧ credit.OutputScript.length = 25) ∨
      (treeOf details.TransactionType = 1 ∧ credit.OutputScript.length = 26) →
      resolveUtxo ext i (.ref txh (some targetIndex)) tx totalInputAmount
        = .ok (tx.AddTxIn (NewTxIn (NewOutPoint txh credit.Index
            (treeOf details.TransactionType)) credit.Amount []),
          add64 totalInputAmount credit.Amount) := by
    intro hs
    simp only [resolveUtxo, hget, hcredits]
    rw [creditLoop_skip _ _ _ _ _ _ _ hpre]
    simp only [creditLoop]
    rw [if_neg (not_not.mpr hidx), if_neg (by omega)]
    rfl
  have hbad : ¬ ((treeOf details.TransactionType = 0 ∧ credit.OutputScript.length = 25) ∨
      (treeOf details.TransactionType = 1 ∧ credit.OutputScript.length = 26)) →
      resolveUtxo ext i (.ref txh (some targetIndex)) tx totalInputAmount
        = .error .unsupportedScript := by
    intro hs
    simp only [resolveUtxo, hget, hcredits]
    rw [creditLoop_skip _ _ _ _ _ _ _ hpre]
    simp only [creditLoop]
    rw [if_neg (not_not.mpr hidx), if_pos (by omega)]
  refine ⟨?_, ?_, ⟨?_, ?_⟩, hgood, ?_, ?_, ?_, ?_⟩
  · cases details.TransactionType <;> simp [treeOf]
  · cases details.TransactionType <;> simp [treeOf]
  · rintro ⟨res, hres⟩
    by_contra hs
    rw [hbad hs] at hres
    cases hres
  · intro hs
    exact ⟨_, hgood hs⟩
  · intro hs
    refine ⟨hbad hs, fun rest => ?_⟩
    simp only [resolveLoop, hbad hs]
  · intro hl
    exact hbad (by omega)
  · intro h0 hl
    exact hbad (by omega)
  · intro h1 hl
    exact hbad (by omega)

/-! ## Independence of the input order -/

theorem foldl_add64_perm {l₁ l₂ : List Int} (h : l₁.Perm l₂) (t : Int) :
    List.foldl add64 t l₁ = List.foldl add64 t l₂ := by
  induction h generalizing t with
  | nil => rfl
  | cons x _ ih => exact ih (add64 t x)
  | swap x y l =>
    simp only [List.foldl_cons]
    have : add64 (add64 t y) x = add64 (add64 t x) y := by
      unfold add64 wrap64; omega
    rw [this]
  | trans _ _ ih₁ ih₂ => exact (ih₁ t).trans (ih₂ t)

theorem sum64_perm {l₁ l₂ : List Int} (h : l₁.Perm l₂) : sum64 l₁ = sum64 l₂ :=
  foldl_add64_perm h 0

theorem wireSerializeSize_perm (a b : List TxIn) (outs : List TxOut) (h : a.Perm b) :
    wireSerializeSize { TxIn := a, TxOut := outs }
      = wireSerializeSize { TxIn := b, TxOut := outs } := by
  unfold wireSerializeSize
  simp only [h.length_eq, (h.map txInSerializeSize).sum_eq]

/-- Two drafts with the same outputs and the same estimated size get the same
decision from the fee and change stage, whatever their change addresses: the
same check, the same fee, size and change amount, the same output values, and
the same output list when no change is due or the change scripts agree. -/
theorem feeAndChange_rel (ext₁ ext₂ : Externals) (ca₁ ca₂ : Address) (tx₁ tx₂ : MsgTx)
    (tin tout : Int) (hout : tx₁.TxOut = tx₂.TxOut)
    (htb : totalBytes ext₁ tx₁ = totalBytes ext₂ tx₂) :
    (feeAndChange ext₁ ca₁ tx₁ tin tout = .error .insufficientFunds ↔
      feeAndChange ext₂ ca₂ tx₂ tin tout = .error .insufficientFunds) ∧
    ((∃ pk, ext₁.PayToAddrScript ca₁ = some pk) → (∃ pk, ext₂.PayToAddrScript ca₂ = some pk) →
      ((∃ r₁, feeAndChange ext₁ ca₁ tx₁ tin tout = .ok r₁) ↔
        (∃ r₂, feeAndChange ext₂ ca₂ tx₂ tin tout = .ok r₂))) ∧
    ∀ r₁ r₂, feeAndChange ext₁ ca₁ tx₁ tin tout = .ok r₁ →
      feeAndChange ext₂ ca₂ tx₂ tin tout = .ok r₂ →
      r₁.estimatedFee = r₂.estimatedFee ∧ r₁.estimatedBytes = r₂.estimatedBytes ∧
      r₁.changeAmt = r₂.changeAmt ∧ r₁.tx.TxIn = tx₁.TxIn ∧ r₂.tx.TxIn = tx₂.TxIn ∧
      r₁.tx.TxOut.map (fun txo => txo.Value) = r₂.tx.TxOut.map (fun txo => txo.Value) ∧
      r₁.tx.TxOut.take tx₁.TxOut.length = tx₁.TxOut ∧
      r₂.tx.TxOut.take tx₁.TxOut.length = tx₁.TxOut ∧
      (r₁.changeAmt = 0 → r₁.tx.TxOut = r₂.tx.TxOut) ∧
      (ext₁.PayToAddrScript ca₁ = ext₂.PayToAddrScript ca₂ → r₁.tx.TxOut = r₂.tx.TxOut) := by
  rw [feeAndChange_eq, feeAndChange_eq, htb]
  generalize totalBytes ext₂ tx₂ = tb
  by_cases h1 : sub64 (sub64 tin tout) (feeWithoutChange tb) < 2000
  · rw [if_pos h1, if_pos h1]
    refine ⟨Iff.rfl, ?_, ?_⟩
    · intro _ _
      constructor <;> rintro ⟨_, h⟩ <;> cases h
    · intro r₁ r₂ h
      cases h
  · rw [if_neg h1, if_neg h1]
    by_cases h2 : 2000 < sub64 (sub64 tin tout) (feeWithChange tb)
    · rw [if_pos h2, if_pos h2]
      cases hp₁ : ext₁.PayToAddrScript ca₁ with
      | none =>
        refine ⟨?_, ?_, ?_⟩
        · cases hp₂ : ext₂.PayToAddrScript ca₂ with
          | none => exact Iff.rfl
          | some pk₂ => constructor <;> intro h <;> cases h
        · rintro ⟨_, h⟩
          cases h
        · intro r₁ r₂ h
          cases h
      | some pk₁ =>
        cases hp₂ : ext₂.PayToAddrScript ca₂ with
        | none =>
          refine ⟨?_, ?_, ?_⟩
          · constructor <;> intro h <;> cases h
          · rintro _ ⟨_, h⟩
            cases h
          · intro r₁ r₂ _ h
            cases h
        | some pk₂ =>
          refine ⟨?_, ?_, ?_⟩
          · constructor <;> intro h <;> cases h
          · intro _ _
            exact ⟨fun _ => ⟨_, rfl⟩, fun _ => ⟨_, rfl⟩⟩
          · intro r₁ r₂ e₁ e₂
            injection e₁ with e₁
            injection e₂ with e₂
            subst e₁ e₂
            refine ⟨rfl, rfl, rfl, rfl, rfl, ?_, ?_, ?_, ?_, ?_⟩
            · simp [MsgTx.AddTxOut, NewTxOut, hout]
            · simp [MsgTx.AddTxOut]
            · simp [MsgTx.AddTxOut, hout]
            · intro h0
              have h0 : sub64 (sub64 tin tout) (feeWithChange tb) = 0 := h0
              omega
            · intro hpk
              injection hpk with hpk
              subst hpk
              simp [MsgTx.AddTxOut, hout]
    · rw [if_neg h2, if_neg h2]
      refine ⟨?_, ?_, ?_⟩
      · constructor <;> intro h <;> cases h
      · intro _ _
        exact ⟨fun _ => ⟨_, rfl⟩, fun _ => ⟨_, rfl⟩⟩
      · intro r₁ r₂ e₁ e₂
        injection e₁ with e₁
        injection e₂ with e₂
        subst e₁ e₂
        refine ⟨rfl, rfl, rfl, rfl, rfl, ?_, ?_, ?_, fun _ => hout, fun _ => hout⟩
        · show tx₁.TxOut.map _ = tx₂.TxOut.map _
          rw [hout]
        · exact List.take_length _
        · show tx₂.TxOut.take tx₁.TxOut.length = tx₁.TxOut
          rw [hout]; exact List.take_length _

theorem feeAndChange_ok_TxIn {ext : Externals} {changeAddr : Address} {tx : MsgTx}
    {tin tout : Int} {r : Report} (h : feeAndChange ext changeAddr tx tin tout = .ok r) :
    r.tx.TxIn = tx.TxIn := by
  rw [feeAndChange_eq] at h
  split at h
  · cases h
  · split at h
    · cases hpk : ext.PayToAddrScript changeAddr with
      | none => rw [hpk] at h; cases h
      | some pk => rw [hpk] at h; injection h with h; subst h; rfl
    · injection h with h; subst h; rfl

/-- A build that succeeds has reached the fee and change stage with the draft
and the totals the two loops have produced. -/
theorem buildDraft_ok_stage {ext : Externals} {o : opts} {r : Report} {t d : MsgTx}
    {n m : Int} (h : buildDraft ext o = .ok r)
    (hr : resolveLoop ext 0 o.Utxos NewMsgTx 0 = .ok (t, n))
    (ho : outputLoop ext o.DestAddrs o.DestAmounts t 0 = .ok (d, m)) :
    ∃ changeAddr, resolveChangeAddr ext o = .ok changeAddr ∧
      feeAndChange ext changeAddr d n m = .ok r := by
  obtain ⟨changeAddr, tx, -, -, hca, hres, hout, hfc⟩ := buildDraft_ok h
  rw [hr] at hres
  injection hres with hres
  injection hres with ht hn
  subst ht hn
  rw [ho] at hout
  injection hout with hout
  injection hout with hd hm
  subst hd hm
  exact ⟨changeAddr, hca, hfc⟩

theorem shuffleInputs_ok {reader : List Nat} {r r2 : Report}
    (h : shuffleInputs reader r = .ok r2) :
    r2.tx.TxIn.Perm r.tx.TxIn ∧ r2.tx.TxOut = r.tx.TxOut ∧ r2.estimatedFee = r.estimatedFee ∧
      r2.estimatedBytes = r.estimatedBytes ∧ r2.changeAmt = r.changeAmt := by
  unfold shuffleInputs at h
  split at h
  · cases h
  · rename_i tx2 hsh
    injection h with h
    subst h
    obtain ⟨hp, ho⟩ := shuffleLoop_ok hsh
    exact ⟨hp, ho, rfl, rfl, rfl⟩

theorem run_ok {ext : Externals} {reader : List Nat} {o : opts} {r2 : Report}
    (h : run ext reader o = .ok r2) :
    ∃ r, buildDraft ext o = .ok r ∧ shuffleInputs reader r = .ok r2 := by
  unfold run at h
  split at h
  · cases h
  · rename_i r hb
    exact ⟨r, hb, h⟩

/-- C8 (as amended). Determinism modulo order: take two builds, each against
the wallet responses it sees, whose resolved input lists are permutations of
each other and whose destination outputs are identical, with a serialized size
that does not depend on the input order.  The accumulated totals are the same
and, whatever the two change addresses, both builds fail the insufficiency
check or neither does; when the change scripts can be built both succeed or
neither does.  When both succeed they have the same `estimatedFee`,
`estimatedBytes` and `changeAmt`, inputs that are permutations of each other,
the same destination outputs and the same output values; the output lists are
identical when no change is created or when both builds get the same change
script, and differ at most in the script of the change output otherwise.  The
same holds after the shuffles, whatever the two random sources deliver. -/
theorem determinism_modulo_order (ext₁ ext₂ : Externals) (o₁ o₂ : opts)
    (t₁ t₂ d₁ d₂ : MsgTx) (n₁ n₂ m₁ m₂ : Int)
    (hsz : ∀ a b outs, a.Perm b →
      ext₁.SerializeSize { TxIn := a, TxOut := outs }
        = ext₂.SerializeSize { TxIn := b, TxOut := outs })
    (hr₁ : resolveLoop ext₁ 0 o₁.Utxos NewMsgTx 0 = .ok (t₁, n₁))
    (hr₂ : resolveLoop ext₂ 0 o₂.Utxos NewMsgTx 0 = .ok (t₂, n₂))
    (hperm : t₁.TxIn.Perm t₂.TxIn)
    (ho₁ : outputLoop ext₁ o₁.DestAddrs o₁.DestAmounts t₁ 0 = .ok (d₁, m₁))
    (ho₂ : outputLoop ext₂ o₂.DestAddrs o₂.DestAmounts t₂ 0 = .ok (d₂, m₂))
    (hdest : d₁.TxOut = d₂.TxOut) :
    n₁ = n₂ ∧ m₁ = m₂ ∧
    (∀ ca₁ ca₂,
      (feeAndChange ext₁ ca₁ d₁ n₁ m₁ = .error .insufficientFunds ↔
        feeAndChange ext₂ ca₂ d₂ n₂ m₂ = .error .insufficientFunds) ∧
      ((∃ pk, ext₁.PayToAddrScript ca₁ = some pk) →
        (∃ pk, ext₂.PayToAddrScript ca₂ = some pk) →
        ((∃ r₁, feeAndChange ext₁ ca₁ d₁ n₁ m₁ = .ok r₁) ↔
          (∃ r₂, feeAndChange ext₂ ca₂ d₂ n₂ m₂ = .ok r₂)))) ∧
    (∀ r₁ r₂, buildDraft ext₁ o₁ = .ok r₁ → buildDraft ext₂ o₂ = .ok r₂ →
      r₁.estimatedFee = r₂.estimatedFee ∧ r₁.estimatedBytes = r₂.estimatedBytes ∧
      r₁.changeAmt = r₂.changeAmt ∧ r₁.tx.TxIn.Perm r₂.tx.TxIn ∧
      r₁.tx.TxOut.map (fun txo => txo.Value) = r₂.tx.TxOut.map (fun txo => txo.Value) ∧
      r₁.tx.TxOut.take d₁.TxOut.length = d₁.TxOut ∧
      r₂.tx.TxOut.take d₁.TxOut.length = d₁.TxOut ∧
      (r₁.changeAmt = 0 → r₁.tx.TxOut = r₂.tx.TxOut) ∧
      (∀ ca₁ ca₂, resolveChangeAddr ext₁ o₁ = .ok ca₁ → resolveChangeAddr ext₂ o₂ = .ok ca₂ →
        ext₁.PayToAddrScript ca₁ = ext₂.PayToAddrScript ca₂ → r₁.tx.TxOut = r₂.tx.TxOut)) ∧
    (∀ reader₁ reader₂ r₁ r₂, run ext₁ reader₁ o₁ = .ok r₁ → run ext₂ reader₂ o₂ = .ok r₂ →
      r₁.estimatedFee = r₂.estimatedFee ∧ r₁.estimatedBytes = r₂.estimatedBytes ∧
      r₁.changeAmt = r₂.changeAmt ∧ r₁.tx.TxIn.Perm r₂.tx.TxIn ∧
      r₁.tx.TxOut.map (fun txo => txo.Value) = r₂.tx.TxOut.map (fun txo => txo.Value) ∧
      r₁.tx.TxOut.take d₁.TxOut.length = d₁.TxOut ∧
      r₂.tx.TxOut.take d₁.TxOut.length = d₁.TxOut ∧
      (r₁.changeAmt = 0 → r₁.tx.TxOut = r₂.tx.TxOut) ∧
      (∀ ca₁ ca₂, resolveChangeAddr ext₁ o₁ = .ok ca₁ → resolveChangeAddr ext₂ o₂ = .ok ca₂ →
        ext₁.PayToAddrScript ca₁ = ext₂.PayToAddrScript ca₂ → r₁.tx.TxOut = r₂.tx.TxOut)) := by
  obtain ⟨tis₁, ht₁, hn₁, -⟩ := resolveLoop_ok hr₁
  obtain ⟨tis₂, ht₂, hn₂, -⟩ := resolveLoop_ok hr₂
  obtain ⟨tos₁, hd₁, hm₁, -⟩ := outputLoop_ok ho₁
  obtain ⟨tos₂, hd₂, hm₂, -⟩ := outputLoop_ok ho₂
  simp only [NewMsgTx, List.nil_append] at ht₁ ht₂
  subst ht₁ ht₂
  simp only [List.nil_append] at hd₁ hd₂
  subst hd₁ hd₂
  have hperm2 : tis₁.Perm tis₂ := hperm
  have htos : tos₁ = tos₂ := hdest
  subst htos
  have hn : n₁ = n₂ := by
    rw [hn₁, hn₂]
    exact foldl_add64_perm (hperm2.map (fun ti => ti.ValueIn)) 0
  have hm : m₁ = m₂ := by rw [hm₁, hm₂]
  have htb : totalBytes ext₁ { TxIn := tis₁, TxOut := tos₁ }
      = totalBytes ext₂ { TxIn := tis₂, TxOut := tos₁ } := by
    unfold totalBytes
    rw [hsz tis₁ tis₂ tos₁ hperm2]
    simp only [hperm2.length_eq]
  have hbuild : ∀ r₁ r₂, buildDraft ext₁ o₁ = .ok r₁ → buildDraft ext₂ o₂ = .ok r₂ →
      r₁.estimatedFee = r₂.estimatedFee ∧ r₁.estimatedBytes = r₂.estimatedBytes ∧
      r₁.changeAmt = r₂.changeAmt ∧ r₁.tx.TxIn.Perm r₂.tx.TxIn ∧
      r₁.tx.TxOut.map (fun txo => txo.Value) = r₂.tx.TxOut.map (fun txo => txo.Value) ∧
      r₁.tx.TxOut.take tos₁.length = tos₁ ∧
      r₂.tx.TxOut.take tos₁.length = tos₁ ∧
      (r₁.changeAmt = 0 → r₁.tx.TxOut = r₂.tx.TxOut) ∧
      (∀ ca₁ ca₂, resolveChangeAddr ext₁ o₁ = .ok ca₁ → resolveChangeAddr ext₂ o₂ = .ok ca₂ →
        ext₁.PayToAddrScript ca₁ = ext₂.PayToAddrScript ca₂ → r₁.tx.TxOut = r₂.tx.TxOut) := by
    intro r₁ r₂ h₁ h₂
    obtain ⟨c₁, hc₁, hf₁⟩ := buildDraft_ok_stage h₁ hr₁ ho₁
    obtain ⟨c₂, hc₂, hf₂⟩ := buildDraft_ok_stage h₂ hr₂ ho₂
    rw [← hn, ← hm] at hf₂
    obtain ⟨-, -, hrel⟩ := feeAndChange_rel ext₁ ext₂ c₁ c₂ { TxIn := tis₁, TxOut := tos₁ }
      { TxIn := tis₂, TxOut := tos₁ } n₁ m₁ rfl htb
    obtain ⟨e1, e2, e3, e4, e5, e6, e7, e8, e9, e10⟩ := hrel r₁ r₂ hf₁ hf₂
    refine ⟨e1, e2, e3, ?_, e6, e7, e8, e9, ?_⟩
    · rw [e4, e5]; exact hperm2
    · intro ca₁ ca₂ hca₁ hca₂ hpk
      rw [hc₁] at hca₁
      rw [hc₂] at hca₂
      injection hca₁ with hca₁
      injection hca₂ with hca₂
      subst hca₁ hca₂
      exact e10 hpk
  refine ⟨hn, hm, ?_, hbuild, ?_⟩
  · intro ca₁ ca₂
    rw [← hn, ← hm]
    obtain ⟨h1, h2, -⟩ := feeAndChange_rel ext₁ ext₂ ca₁ ca₂ { TxIn := tis₁, TxOut := tos₁ }
      { TxIn := tis₂, TxOut := tos₁ } n₁ m₁ rfl htb
    exact ⟨h1, h2⟩
  · intro reader₁ reader₂ r₁ r₂ h₁ h₂
    obtain ⟨b₁, hb₁, hs₁⟩ := run_ok h₁
    obtain ⟨b₂, hb₂, hs₂⟩ := run_ok h₂
    obtain ⟨e1, e2, e3, e4, e5, e6, e7, e8, e9⟩ := hbuild b₁ b₂ hb₁ hb₂
    obtain ⟨p1, a1, f1, c1, g1⟩ := shuffleInputs_ok hs₁
    obtain ⟨p2, a2, f2, c2, g2⟩ := shuffleInputs_ok hs₂
    rw [a1, a2, f1, f2, c1, c2, g1, g2]
    exact ⟨e1, e2, e3, (p1.trans e4).trans p2.symm, e5, e6, e7, e8, e9⟩

/-- C8 as stated fails: two builds on the same wallet with the same two utxos
in the orders 0,1 and 1,0 and the same destination, one with `--changeto` an
address of twenty bytes 3 and one with twenty bytes 4.  The resolved inputs are
permutations of each other and the destination outputs are identical, both
builds succeed with the same fee, size and change amount, but their output
lists differ in the script of the change output. -/
theorem determinism_modulo_order_counterexample :
    buildDraft twoCreditAddrWallet (changeToOpts 0 1 (List.replicate 20 3))
      = .ok (changeToReport (twoCreditInput 0 60000000) (twoCreditInput 1 40000000)
          (List.replicate 20 3)) ∧
    buildDraft twoCreditAddrWallet (changeToOpts 1 0 (List.replicate 20 4))
      = .ok (changeToReport (twoCreditInput 1 40000000) (twoCreditInput 0 60000000)
          (List.replicate 20 4)) ∧
    [twoCreditInput 0 60000000, twoCreditInput 1 40000000].Perm
      [twoCreditInput 1 40000000, twoCreditInput 0 60000000] ∧
    (changeToOpts 0 1 (List.replicate 20 3)).DestAddrs
      = (changeToOpts 1 0 (List.replicate 20 4)).DestAddrs ∧
    (changeToOpts 0 1 (List.replicate 20 3)).DestAmounts
      = (changeToOpts 1 0 (List.replicate 20 4)).DestAmounts ∧
    (changeToReport (twoCreditInput 0 60000000) (twoCreditInput 1 40000000)
        (List.replicate 20 3)).tx.TxOut
      ≠ (changeToReport (twoCreditInput 1 40000000) (twoCreditInput 0 60000000)
        (List.replicate 20 4)).tx.TxOut := by
  exact ⟨by rfl, by rfl, List.Perm.swap _ _ _, rfl, rfl, by decide⟩

/-! ## The theorems at concrete inputs -/

/-- Without overflow the two subtractions of the dust-limit check are exact. -/
theorem sub64_sub64_exact (tin tout fee : Int) (h₁ : 0 ≤ tin) (h₂ : tin < 2 ^ 62)
    (h₃ : 0 ≤ tout) (h₄ : tout < 2 ^ 62) (h₅ : 0 ≤ fee) (h₆ : fee < 2 ^ 62) :
    sub64 (sub64 tin tout) fee = tin - tout - fee := by
  unfold sub64 wrap64; omega

theorem scenarioA_run :
    buildDraft (exampleWallet 100000000) (exampleOpts 50000000) = .ok scenarioAReport ∧
    run (exampleWallet 100000000) [] (exampleOpts 50000000) = .ok scenarioAReport := by
  exact ⟨by rfl, by rfl⟩

theorem conservation_amended_witness :
    buildDraft (exampleWallet 100000000) (exampleOpts 50000000) = .ok scenarioAReport ∧
    scenarioAReport.estimatedFee = 10 * (109 + 108 * 1 + 36) ∧
    (scenarioAReport.tx.TxIn.map (fun ti => ti.ValueIn)).sum
      = ((scenarioAReport.tx.TxOut.take 1).map (fun txo => txo.Value)).sum
        + scenarioAReport.changeAmt + scenarioAReport.estimatedFee ∧
    (scenarioAReport.tx.TxIn.map (fun ti => ti.ValueIn)).sum
      = (scenarioAReport.tx.TxOut.map (fun txo => txo.Value)).sum
        + scenarioAReport.estimatedFee := by
  have H := conservation_amended (exampleWallet 100000000) (exampleOpts 50000000)
    scenarioAReport (by rfl) (by decide) (by decide) (by decide) (by decide) (by decide)
    (by decide)
  have H1 := H.1 (by decide)
  exact ⟨by rfl, H1.2.2.1, H1.2.2.2.1, H1.2.2.2.2⟩

theorem scenario_B_amended_witness :
    (50004270 : Int) = add64 (add64 50000000 (feeWithoutChange
      (totalBytes (exampleWallet 50004270) (exampleTx 50004270 50000000)))) 2100 ∧
    feeAndChange (exampleWallet 50004270) [] (exampleTx 50004270 50000000) 50004270 50000000
      = .ok (noChangeReport 50004270 50000000) ∧
    sub64 50004270 50000000 = add64 2170 2100 := by
  have H := scenario_B_amended (exampleWallet 50004270) [] (exampleTx 50004270 50000000)
    50004270 50000000 2100 (by decide)
  exact ⟨by decide, (H.2.2 (by decide) (by decide)).2 (by decide) (by decide)⟩

theorem script_shape_witness :
    ((∃ res, resolveUtxo (exampleWallet 100000000) 0 (.ref (List.replicate 32 0) (some 0))
        NewMsgTx 0 = .ok res) ↔
      (treeOf .REGULAR = 0 ∧ p2pkhScript.length = 25) ∨
      (treeOf .REGULAR = 1 ∧ p2pkhScript.length = 26)) ∧
    resolveUtxo (walletOf .VOTE p2pkhScript 100000000) 0 (.ref (List.replicate 32 0) (some 0))
        NewMsgTx 0 = .error .unsupportedScript ∧
    resolveUtxo (walletOf .REGULAR (0 :: p2pkhScript) 100000000) 0
        (.ref (List.replicate 32 0) (some 0)) NewMsgTx 0 = .error .unsupportedScript :=
  ⟨(script_shape (exampleWallet 100000000) 0 (List.replicate 32 0) 0
      { TransactionType := .REGULAR,
        Credits := [{ Index := 0, Amount := 100000000, OutputScript := p2pkhScript }] }
      [] [] { Index := 0, Amount := 100000000, OutputScript := p2pkhScript } NewMsgTx 0
      rfl rfl (by simp) (by decide)).2.2.1,
   (script_shape (walletOf .VOTE p2pkhScript 100000000) 0 (List.replicate 32 0) 0
      { TransactionType := .VOTE,
        Credits := [{ Index := 0, Amount := 100000000, OutputScript := p2pkhScript }] }
      [] [] { Index := 0, Amount := 100000000, OutputScript := p2pkhScript } NewMsgTx 0
      rfl rfl (by simp) (by decide)).2.2.2.2.2.2.2 (by decide) (by decide),
   (script_shape (walletOf .REGULAR (0 :: p2pkhScript) 100000000) 0 (List.replicate 32 0) 0
      { TransactionType := .REGULAR,
        Credits := [{ Index := 0, Amount := 100000000, OutputScript := 0 :: p2pkhScript }] }
      [] [] { Index := 0, Amount := 100000000, OutputScript := 0 :: p2pkhScript } NewMsgTx 0
      rfl rfl (by simp) (by decide)).2.2.2.2.2.2.1 (by decide) (by decide)⟩

theorem scenario_A_witness :
    feeAndChange (exampleWallet 100000000) [] (exampleTx 100000000 50000000)
      (sum64 [100000000]) (sum64 [50000000]) = .ok scenarioAReport ∧
    scenarioAReport.estimatedFee = 2530 ∧ scenarioAReport.estimatedBytes = 253 ∧
    scenarioAReport.changeAmt = 49997470 ∧
    (exampleWallet 100000000).SerializeSize (exampleTx 100000000 50000000) = 109 :=
  ⟨(scenario_A (exampleWallet 100000000) []
      (NewTxIn (NewOutPoint (List.replicate 32 0) 0 0) 100000000 [])
      (NewTxOut 50000000 p2pkhScript) 109 p2pkhScript rfl rfl (by rfl) (by decide) (by decide)
      rfl).1, rfl, rfl, rfl, by rfl⟩

theorem determinism_modulo_order_witness :
    buildDraft twoCreditAddrWallet (changeToOpts 0 1 (List.replicate 20 3))
      = .ok (changeToReport (twoCreditInput 0 60000000) (twoCreditInput 1 40000000)
          (List.replicate 20 3)) ∧
    buildDraft twoCreditAddrWallet (changeToOpts 1 0 (List.replicate 20 4))
      = .ok (changeToReport (twoCreditInput 1 40000000) (twoCreditInput 0 60000000)
          (List.replicate 20 4)) ∧
    (changeToReport (twoCreditInput 0 60000000) (twoCreditInput 1 40000000)
        (List.replicate 20 3)).estimatedFee
      = (changeToReport (twoCreditInput 1 40000000) (twoCreditInput 0 60000000)
        (List.replicate 20 4)).estimatedFee ∧
    (changeToReport (twoCreditInput 0 60000000) (twoCreditInput 1 40000000)
        (List.replicate 20 3)).changeAmt
      = (changeToReport (twoCreditInput 1 40000000) (twoCreditInput 0 60000000)
        (List.replicate 20 4)).changeAmt ∧
    (changeToReport (twoCreditInput 0 60000000) (twoCreditInput 1 40000000)
        (List.replicate 20 3)).tx.TxIn.Perm
      (changeToReport (twoCreditInput 1 40000000) (twoCreditInput 0 60000000)
        (List.replicate 20 4)).tx.TxIn ∧
    (changeToReport (twoCreditInput 0 60000000) (twoCreditInput 1 40000000)
        (List.replicate 20 3)).tx.TxOut.map (fun txo => txo.Value)
      = (changeToReport (twoCreditInput 1 40000000) (twoCreditInput 0 60000000)
        (List.replicate 20 4)).tx.TxOut.map (fun txo => txo.Value) := by
  have H := (determinism_modulo_order twoCreditAddrWallet twoCreditAddrWallet
    (changeToOpts 0 1 (List.replicate 20 3)) (changeToOpts 1 0 (List.replicate 20 4))
    { TxIn := [twoCreditInput 0 60000000, twoCreditInput 1 40000000], TxOut := [] }
    { TxIn := [twoCreditInput 1 40000000, twoCreditInput 0 60000000], TxOut := [] }
    { TxIn := [twoCreditInput 0 60000000, twoCreditInput 1 40000000], TxOut := [twoUtxoDest] }
    { TxIn := [twoCreditInput 1 40000000, twoCreditInput 0 60000000], TxOut := [twoUtxoDest] }
    100000000 100000000 50000000 50000000
    (fun a b outs h => wireSerializeSize_perm a b outs h) (by rfl) (by rfl)
    (List.Perm.swap _ _ _) (by rfl) (by rfl) rfl).2.2.2.1
    (changeToReport (twoCreditInput 0 60000000) (twoCreditInput 1 40000000)
      (List.replicate 20 3))
    (changeToReport (twoCreditInput 1 40000000) (twoCreditInput 0 60000000)
      (List.replicate 20 4)) (by rfl) (by rfl)
  exact ⟨by rfl, by rfl, H.1, H.2.2.1, H.2.2.2.1, H.2.2.2.2.1⟩

theorem no_change_bound_witness :
    feeAndChange (exampleWallet 100004170) [] (exampleTx 100004170 100000000)
      100004170 100000000 = .ok (noChangeReport 100004170 100000000) ∧
    (noChangeReport 100004170 100000000).changeAmt = 0 ∧
    (noChangeReport 100004170 100000000).estimatedBytes = 109 + 108 * 1 ∧
    2000 ≤ sub64 (sub64 100004170 100000000) (10 * (109 + 108 * 1)) ∧
    sub64 (sub64 100004170 100000000) (10 * (109 + 108 * 1)) ≤ 2360 := by
  have H := no_change_bound (exampleWallet 100004170) [] (exampleTx 100004170 100000000)
    100004170 100000000 (noChangeReport 100004170 100000000) (by rfl) (by rfl)
  have H2 := H.2.2.2.2.2 (by decide) (by decide)
  exact ⟨by rfl, H.1, H2.1, H2.2.2.2.2.1, H2.2.2.2.2.2⟩
end spendutxo
